import Mathlib

/-!
# CoinGod: stack opcodes of the script VM, API error table, network parameters

A shallow embedding of

* `protocol/vm/stack.go` (the stack-manipulation opcodes),
* `api/errors.go` (`isTemporary` and the `respErrFormatter` table),
* `consensus/general.go` (`NetParams`, `InitActiveNetParams`),

followed by theorems about them.

Conventions.  A Go slice is a `List` in the same order, so the top of a stack
is the LAST element.  Go `int`/`int64` values are `Int`; where the source
converts or adds at 64 bits the wrap-around is explicit (`toInt64`).  A Go
function `func(vm *virtualMachine) error` becomes a function
`virtualMachine → Outcome`: it either returns (an optional error together
with the VM as the call left it, since the VM is mutated through a pointer
also on failing paths) or dies with a runtime panic (slice index out of
range).
-/

namespace Coingod
namespace vm

/-! ## Data model -/

/-- Error sentinels of package `vm` that the stack opcodes can return. -/
inductive VMError where
  | ErrAltStackUnderflow
  | ErrBadValue
  | ErrDataStackUnderflow
  | ErrRange
  | ErrRunLimitExceeded
  deriving DecidableEq, Repr

/-- The fields of `virtualMachine` that the stack opcodes read or write. -/
structure virtualMachine where
  runLimit : Int
  deferredCost : Int
  dataStack : List (List UInt8)
  altStack : List (List UInt8)
  deriving DecidableEq, Repr

/-- Result of running a Go function of type `func(vm *virtualMachine) error`:
`ret err vm` when it returns `err` (`none` is `nil`) leaving the machine `vm`,
`panic` when the Go runtime panics (index out of range). -/
inductive Outcome where
  | ret (err : Option VMError) (vm : virtualMachine)
  | panic
  deriving DecidableEq, Repr

/-! ## Go slice primitives (bounds-checked, as the Go runtime does) -/

/-- Go `s[i]`: `none` is the runtime panic for an index outside `0 ≤ i < len(s)`. -/
def index {α : Type} (s : List α) (i : Int) : Option α :=
  if 0 ≤ i ∧ i < (s.length : Int) then s[i.toNat]? else none

/-- Go `s[:j]`: `none` is the runtime panic for `j` outside `0 ≤ j ≤ len(s)`. -/
def sliceTo {α : Type} (s : List α) (j : Int) : Option (List α) :=
  if 0 ≤ j ∧ j ≤ (s.length : Int) then some (s.take j.toNat) else none

/-- Go `s[i:]`: `none` is the runtime panic for `i` outside `0 ≤ i ≤ len(s)`. -/
def sliceFrom {α : Type} (s : List α) (i : Int) : Option (List α) :=
  if 0 ≤ i ∧ i ≤ (s.length : Int) then some (s.drop i.toNat) else none

/-- Go `for i := 0; i < n; i++ { body }` where the body either falls through
(`ret none`) or returns from the enclosing function (an error, or a panic);
after `n` rounds the enclosing function goes on (here: returns `nil`). -/
def forRange : Nat → (virtualMachine → Outcome) → virtualMachine → Outcome
  | 0, _, vm => Outcome.ret none vm
  | k + 1, body, vm =>
    match body vm with
    | Outcome.ret none vm1 => forRange k body vm1
    | Outcome.ret (some err) vm1 => Outcome.ret (some err) vm1
    | Outcome.panic => Outcome.panic

/-! ## 64-bit integer conversions -/

/-- Two's-complement reading of an integer at 64 bits: Go's `int64(x)` and the
result of an `int64` addition or subtraction.  The low 64 bits `x mod 2^64`
are read as negative when bit 63 is set (9223372036854775808 is 2^63 and
18446744073709551616 is 2^64, see `int64_constants`). -/
def toInt64 (x : Int) : Int :=
  if 9223372036854775808 ≤ x % 18446744073709551616 then
    x % 18446744073709551616 - 18446744073709551616
  else x % 18446744073709551616

/-- Go's `uint64(x)` for a non-negative `int`: the low 64 bits. -/
def toUint64 (x : Nat) : Nat := x % 18446744073709551616

/-- The method `Uint64` of `uint256.Int` (package github.com/holiman/uint256):
the low 64 bits of a 256-bit unsigned integer. -/
def Uint64 (n : Nat) : Nat := n % 18446744073709551616

/-- The constant `math.MaxInt64`, 2^63 - 1. -/
def MaxInt64 : Int := 9223372036854775807

/-- The constant `math.MinInt64`, -2^63. -/
def MinInt64 : Int := -9223372036854775808

/-- Modelled from the spec: `checked.AddInt64` of package `math/checked`, which
is not among the sources.  Overflow-detecting addition ("bounded integer
arithmetic with overflow detection"): the sum and `true`, or `0` and `false`
when the sum does not fit an `int64`. -/
def AddInt64 (a b : Int) : Int × Bool :=
  if (b > 0 ∧ a > MaxInt64 - b) ∨ (b < 0 ∧ a < MinInt64 - b) then (0, false)
  else (a + b, true)

/-! ## Stack item encodings (types.go, not among the sources) -/

/-- Little-endian base-256 digits of `n`, at most `fuel` of them, without
trailing zero bytes. -/
def leBytes : Nat → Nat → List UInt8
  | 0, _ => []
  | fuel + 1, n => if n = 0 then [] else UInt8.ofNat (n % 256) :: leBytes fuel (n / 256)

/-- Value of a little-endian byte string. -/
def leValue : List UInt8 → Nat
  | [] => 0
  | b :: bs => b.toNat + 256 * leValue bs

/-- Modelled from the spec: `BigIntBytes` of `protocol/vm/types.go`, which is
not among the sources.  The stack encoding of a wide (256-bit) integer: its
little-endian bytes without trailing zeros (zero is the empty string). -/
def BigIntBytes (n : Nat) : List UInt8 := leBytes 32 (n % 2 ^ 256)

/-- Modelled from the spec: `AsBigInt` of `protocol/vm/types.go`, which is not
among the sources.  Decodes a stack item as a wide (256-bit) integer: more
than 32 bytes is a bad value, a value with the sign bit (bit 255) set is a
range error, anything else is the little-endian value. -/
def AsBigInt (b : List UInt8) : Except VMError Nat :=
  if b.length > 32 then Except.error VMError.ErrBadValue
  else if leValue b ≥ 2 ^ 255 then Except.error VMError.ErrRange
  else Except.ok (leValue b)

/-- Modelled from the spec: `AsBool` of `protocol/vm/types.go`, which is not
among the sources.  Truthiness of a stack item: false exactly when every byte
is zero (the empty string included). -/
def AsBool (bytes : List UInt8) : Bool := bytes.any (fun b => b != 0)

/-! ## VM helpers (vm.go, not among the sources) -/

/-- Modelled from the spec: `virtualMachine.applyCost` of `protocol/vm/vm.go`,
which is not among the sources.  Debits `n` from the remaining run limit;
when `n` exceeds it the run limit is zeroed and the run-limit error returned.
On the passing path `0 ≤ n ≤ runLimit` for every cost used here, so the
`int64` subtraction cannot wrap. -/
def applyCost (vm : virtualMachine) (n : Int) : Option VMError × virtualMachine :=
  if n > vm.runLimit then
    (some VMError.ErrRunLimitExceeded, { vm with runLimit := 0 })
  else
    (none, { vm with runLimit := vm.runLimit - n })

/-- Modelled from the spec: `virtualMachine.deferCost` of `protocol/vm/vm.go`,
which is not among the sources. -/
def deferCost (vm : virtualMachine) (n : Int) : virtualMachine :=
  { vm with deferredCost := toInt64 (vm.deferredCost + n) }

/-- Modelled from the spec: `virtualMachine.pushDataStack` of
`protocol/vm/vm.go`, which is not among the sources.  Charges the
size-dependent cost `8 + len(data)` (now, or deferred) and appends the item;
when the charge fails nothing is appended. -/
def pushDataStack (vm : virtualMachine) (data : List UInt8) (deferred : Bool) :
    Option VMError × virtualMachine :=
  let cost : Int := 8 + (data.length : Int)
  if deferred then
    let vm1 := deferCost vm cost
    (none, { vm1 with dataStack := vm1.dataStack ++ [data] })
  else
    match applyCost vm cost with
    | (some err, vm1) => (some err, vm1)
    | (none, vm1) => (none, { vm1 with dataStack := vm1.dataStack ++ [data] })

/-- Modelled from the spec: `virtualMachine.pushBigInt` of `protocol/vm/vm.go`,
which is not among the sources. -/
def pushBigInt (vm : virtualMachine) (n : Nat) (deferred : Bool) :
    Option VMError × virtualMachine :=
  pushDataStack vm (BigIntBytes n) deferred

/-- Modelled from the spec: `virtualMachine.pop` of `protocol/vm/vm.go`, which
is not among the sources.  Underflow on an empty data stack; otherwise removes
the top item and refunds its cost `8 + len(item)` to the run limit (now, or
deferred).  The refund is an `int64` addition. -/
def pop (vm : virtualMachine) (deferred : Bool) :
    Except VMError (List UInt8) × virtualMachine :=
  match vm.dataStack.getLast? with
  | none => (Except.error VMError.ErrDataStackUnderflow, vm)
  | some res =>
    if deferred then
      (Except.ok res,
        deferCost { vm with dataStack := vm.dataStack.dropLast } (-(8 + (res.length : Int))))
    else
      (Except.ok res,
        { vm with dataStack := vm.dataStack.dropLast,
                  runLimit := toInt64 (vm.runLimit + (8 + (res.length : Int))) })

/-- Modelled from the spec: `virtualMachine.popBigInt` of `protocol/vm/vm.go`,
which is not among the sources.  Pops the top item, then decodes it; the item
stays popped when the decoding fails. -/
def popBigInt (vm : virtualMachine) (deferred : Bool) :
    Except VMError Nat × virtualMachine :=
  match pop vm deferred with
  | (Except.error err, vm1) => (Except.error err, vm1)
  | (Except.ok bytes, vm1) => (AsBigInt bytes, vm1)

/-- Modelled from the spec: `virtualMachine.top` of `protocol/vm/vm.go`, which
is not among the sources.  The top item without removing it; underflow on an
empty data stack. -/
def top (vm : virtualMachine) : Except VMError (List UInt8) :=
  match vm.dataStack.getLast? with
  | none => Except.error VMError.ErrDataStackUnderflow
  | some x => Except.ok x

/-! ## protocol/vm/stack.go -/

def opToAltStack (vm : virtualMachine) : Outcome :=
  match applyCost vm 2 with
  | (some err, vm) => Outcome.ret (some err) vm
  | (none, vm) =>
    if vm.dataStack.length = 0 then Outcome.ret (some VMError.ErrDataStackUnderflow) vm
    else
      -- no standard memory cost accounting here
      match index vm.dataStack ((vm.dataStack.length : Int) - 1) with
      | none => Outcome.panic
      | some x =>
        match sliceTo vm.dataStack ((vm.dataStack.length : Int) - 1) with
        | none => Outcome.panic
        | some s => Outcome.ret none { vm with altStack := vm.altStack ++ [x], dataStack := s }

def opFromAltStack (vm : virtualMachine) : Outcome :=
  match applyCost vm 2 with
  | (some err, vm) => Outcome.ret (some err) vm
  | (none, vm) =>
    if vm.altStack.length = 0 then Outcome.ret (some VMError.ErrAltStackUnderflow) vm
    else
      -- no standard memory cost accounting here
      match index vm.altStack ((vm.altStack.length : Int) - 1) with
      | none => Outcome.panic
      | some x =>
        match sliceTo vm.altStack ((vm.altStack.length : Int) - 1) with
        | none => Outcome.panic
        | some s => Outcome.ret none { vm with dataStack := vm.dataStack ++ [x], altStack := s }

def op2Drop (vm : virtualMachine) : Outcome :=
  match applyCost vm 2 with
  | (some err, vm) => Outcome.ret (some err) vm
  | (none, vm) =>
    forRange 2
      (fun vm =>
        match pop vm false with
        | (Except.error err, vm) => Outcome.ret (some err) vm
        | (Except.ok _, vm) => Outcome.ret none vm)
      vm

def nDup (vm : virtualMachine) (n : Int) : Outcome :=
  match applyCost vm (toInt64 n) with
  | (some err, vm) => Outcome.ret (some err) vm
  | (none, vm) =>
    if (vm.dataStack.length : Int) < n then Outcome.ret (some VMError.ErrDataStackUnderflow) vm
    else
      forRange n.toNat
        (fun vm =>
          match index vm.dataStack ((vm.dataStack.length : Int) - n) with
          | none => Outcome.panic
          | some x =>
            match pushDataStack vm x false with
            | (some err, vm) => Outcome.ret (some err) vm
            | (none, vm) => Outcome.ret none vm)
        vm

def op2Dup (vm : virtualMachine) : Outcome :=
  nDup vm 2

def op3Dup (vm : virtualMachine) : Outcome :=
  nDup vm 3

def op2Over (vm : virtualMachine) : Outcome :=
  match applyCost vm 2 with
  | (some err, vm) => Outcome.ret (some err) vm
  | (none, vm) =>
    if (vm.dataStack.length : Int) < 4 then Outcome.ret (some VMError.ErrDataStackUnderflow) vm
    else
      forRange 2
        (fun vm =>
          match index vm.dataStack ((vm.dataStack.length : Int) - 4) with
          | none => Outcome.panic
          | some x =>
            match pushDataStack vm x false with
            | (some err, vm) => Outcome.ret (some err) vm
            | (none, vm) => Outcome.ret none vm)
        vm

def op2Rot (vm : virtualMachine) : Outcome :=
  match applyCost vm 2 with
  | (some err, vm) => Outcome.ret (some err) vm
  | (none, vm) =>
    if (vm.dataStack.length : Int) < 6 then Outcome.ret (some VMError.ErrDataStackUnderflow) vm
    else
      match sliceTo vm.dataStack ((vm.dataStack.length : Int) - 6),
          sliceFrom vm.dataStack ((vm.dataStack.length : Int) - 4),
          index vm.dataStack ((vm.dataStack.length : Int) - 6),
          index vm.dataStack ((vm.dataStack.length : Int) - 5) with
      | some lo, some hi, some x, some y =>
        Outcome.ret none { vm with dataStack := ((([] ++ lo) ++ hi) ++ [x]) ++ [y] }
      | _, _, _, _ => Outcome.panic

def op2Swap (vm : virtualMachine) : Outcome :=
  match applyCost vm 2 with
  | (some err, vm) => Outcome.ret (some err) vm
  | (none, vm) =>
    if (vm.dataStack.length : Int) < 4 then Outcome.ret (some VMError.ErrDataStackUnderflow) vm
    else
      match sliceTo vm.dataStack ((vm.dataStack.length : Int) - 4),
          sliceFrom vm.dataStack ((vm.dataStack.length : Int) - 2),
          index vm.dataStack ((vm.dataStack.length : Int) - 4),
          index vm.dataStack ((vm.dataStack.length : Int) - 3) with
      | some lo, some hi, some x, some y =>
        Outcome.ret none { vm with dataStack := ((([] ++ lo) ++ hi) ++ [x]) ++ [y] }
      | _, _, _, _ => Outcome.panic

def opIfDup (vm : virtualMachine) : Outcome :=
  match applyCost vm 1 with
  | (some err, vm) => Outcome.ret (some err) vm
  | (none, vm) =>
    match top vm with
    | Except.error err => Outcome.ret (some err) vm
    | Except.ok item =>
      if AsBool item then
        match pushDataStack vm item false with
        | (some err, vm) => Outcome.ret (some err) vm
        | (none, vm) => Outcome.ret none vm
      else Outcome.ret none vm

def opDepth (vm : virtualMachine) : Outcome :=
  match applyCost vm 1 with
  | (some err, vm) => Outcome.ret (some err) vm
  | (none, vm) =>
    match pushBigInt vm (toUint64 vm.dataStack.length) false with
    | (some err, vm) => Outcome.ret (some err) vm
    | (none, vm) => Outcome.ret none vm

def opDrop (vm : virtualMachine) : Outcome :=
  match applyCost vm 1 with
  | (some err, vm) => Outcome.ret (some err) vm
  | (none, vm) =>
    match pop vm false with
    | (Except.error err, vm) => Outcome.ret (some err) vm
    | (Except.ok _, vm) => Outcome.ret none vm

def opDup (vm : virtualMachine) : Outcome :=
  nDup vm 1

def opNip (vm : virtualMachine) : Outcome :=
  match applyCost vm 1 with
  | (some err, vm) => Outcome.ret (some err) vm
  | (none, vm) =>
    match top vm with
    | Except.error err => Outcome.ret (some err) vm
    | Except.ok top =>
      -- temporarily pop off the top value with no standard memory accounting
      match sliceTo vm.dataStack ((vm.dataStack.length : Int) - 1) with
      | none => Outcome.panic
      | some s =>
        match pop { vm with dataStack := s } false with
        | (Except.error err, vm) => Outcome.ret (some err) vm
        | (Except.ok _, vm) =>
          -- now put the top item back
          Outcome.ret none { vm with dataStack := vm.dataStack ++ [top] }

def opOver (vm : virtualMachine) : Outcome :=
  match applyCost vm 1 with
  | (some err, vm) => Outcome.ret (some err) vm
  | (none, vm) =>
    if (vm.dataStack.length : Int) < 2 then Outcome.ret (some VMError.ErrDataStackUnderflow) vm
    else
      match index vm.dataStack ((vm.dataStack.length : Int) - 2) with
      | none => Outcome.panic
      | some x =>
        match pushDataStack vm x false with
        | (some err, vm) => Outcome.ret (some err) vm
        | (none, vm) => Outcome.ret none vm

def opPick (vm : virtualMachine) : Outcome :=
  match applyCost vm 2 with
  | (some err, vm) => Outcome.ret (some err) vm
  | (none, vm) =>
    match popBigInt vm false with
    | (Except.error err, vm) => Outcome.ret (some err) vm
    | (Except.ok n, vm) =>
      match AddInt64 (toInt64 (Uint64 n)) 1 with
      | (_, false) => Outcome.ret (some VMError.ErrBadValue) vm
      | (off, true) =>
        if (vm.dataStack.length : Int) < off then
          Outcome.ret (some VMError.ErrDataStackUnderflow) vm
        else
          match index vm.dataStack (toInt64 ((vm.dataStack.length : Int) - off)) with
          | none => Outcome.panic
          | some x =>
            match pushDataStack vm x false with
            | (some err, vm) => Outcome.ret (some err) vm
            | (none, vm) => Outcome.ret none vm

def rot (vm : virtualMachine) (n : Int) : Outcome :=
  if n < 1 then Outcome.ret (some VMError.ErrBadValue) vm
  else if (vm.dataStack.length : Int) < n then
    Outcome.ret (some VMError.ErrDataStackUnderflow) vm
  else
    match sliceTo vm.dataStack (toInt64 ((vm.dataStack.length : Int) - n)),
        sliceFrom vm.dataStack (toInt64 ((vm.dataStack.length : Int) - n) + 1),
        index vm.dataStack (toInt64 ((vm.dataStack.length : Int) - n)) with
    | some lo, some hi, some x =>
      Outcome.ret none { vm with dataStack := (([] ++ lo) ++ hi) ++ [x] }
    | _, _, _ => Outcome.panic

def opRoll (vm : virtualMachine) : Outcome :=
  match applyCost vm 2 with
  | (some err, vm) => Outcome.ret (some err) vm
  | (none, vm) =>
    match popBigInt vm false with
    | (Except.error err, vm) => Outcome.ret (some err) vm
    | (Except.ok n, vm) =>
      match AddInt64 (toInt64 (Uint64 n)) 1 with
      | (_, false) => Outcome.ret (some VMError.ErrBadValue) vm
      | (off, true) => rot vm off

def opRot (vm : virtualMachine) : Outcome :=
  match applyCost vm 2 with
  | (some err, vm) => Outcome.ret (some err) vm
  | (none, vm) => rot vm 3

def opSwap (vm : virtualMachine) : Outcome :=
  match applyCost vm 1 with
  | (some err, vm) => Outcome.ret (some err) vm
  | (none, vm) =>
    if (vm.dataStack.length : Int) < 2 then Outcome.ret (some VMError.ErrDataStackUnderflow) vm
    else
      match index vm.dataStack ((vm.dataStack.length : Int) - 2),
          index vm.dataStack ((vm.dataStack.length : Int) - 1) with
      | some x, some y =>
        Outcome.ret none
          { vm with dataStack :=
              (vm.dataStack.set (vm.dataStack.length - 1) x).set (vm.dataStack.length - 2) y }
      | _, _ => Outcome.panic

def opTuck (vm : virtualMachine) : Outcome :=
  match applyCost vm 1 with
  | (some err, vm) => Outcome.ret (some err) vm
  | (none, vm) =>
    if (vm.dataStack.length : Int) < 2 then Outcome.ret (some VMError.ErrDataStackUnderflow) vm
    else
      match sliceFrom vm.dataStack ((vm.dataStack.length : Int) - 2) with
      | none => Outcome.panic
      | some top2 =>
        -- temporarily remove the top two items without standard memory accounting
        match sliceTo vm.dataStack ((vm.dataStack.length : Int) - 2) with
        | none => Outcome.panic
        | some s =>
          match index top2 1 with
          | none => Outcome.panic
          | some x =>
            match pushDataStack { vm with dataStack := s } x false with
            | (some err, vm) => Outcome.ret (some err) vm
            | (none, vm) => Outcome.ret none { vm with dataStack := vm.dataStack ++ top2 }

/-! ## The opcodes of stack.go as one family -/

/-- Names of the stack opcodes implemented in stack.go. -/
inductive StackOp where
  | TOALTSTACK | FROMALTSTACK | DROP2 | DUP2 | DUP3 | OVER2 | ROT2 | SWAP2
  | IFDUP | DEPTH | DROP | DUP | NIP | OVER | PICK | ROLL | ROT | SWAP | TUCK
  deriving DecidableEq, Repr

/-- The function of stack.go that implements each opcode. -/
def StackOp.fn : StackOp → virtualMachine → Outcome
  | TOALTSTACK => opToAltStack
  | FROMALTSTACK => opFromAltStack
  | DROP2 => op2Drop
  | DUP2 => op2Dup
  | DUP3 => op3Dup
  | OVER2 => op2Over
  | ROT2 => op2Rot
  | SWAP2 => op2Swap
  | IFDUP => opIfDup
  | DEPTH => opDepth
  | DROP => opDrop
  | DUP => opDup
  | NIP => opNip
  | OVER => opOver
  | PICK => opPick
  | ROLL => opRoll
  | ROT => opRot
  | SWAP => opSwap
  | TUCK => opTuck

/-- The fixed cost each opcode debits first (the argument of its `applyCost`). -/
def StackOp.fixedCost : StackOp → Int
  | TOALTSTACK => 2
  | FROMALTSTACK => 2
  | DROP2 => 2
  | DUP2 => 2
  | DUP3 => 3
  | OVER2 => 2
  | ROT2 => 2
  | SWAP2 => 2
  | IFDUP => 1
  | DEPTH => 1
  | DROP => 1
  | DUP => 1
  | NIP => 1
  | OVER => 1
  | PICK => 2
  | ROLL => 2
  | ROT => 2
  | SWAP => 1
  | TUCK => 1

/-- The depth `k` of the guard `len(stack) < k` (for TOALTSTACK and
FROMALTSTACK: `len(stack) == 0`, that is `k = 1`) that an opcode tests right
after debiting its fixed cost and before touching a stack; for DUP, 2DUP and
3DUP it is the `n` handed to `nDup`, for ROT the `3` handed to `rot`.  `none`
for the opcodes without such a guard (2DROP, IFDUP, DEPTH, DROP, NIP, PICK,
ROLL), which go through `pop`, `top` or `popBigInt` instead. -/
def StackOp.guardDepth : StackOp → Option Nat
  | TOALTSTACK => some 1
  | FROMALTSTACK => some 1
  | DUP => some 1
  | DUP2 => some 2
  | DUP3 => some 3
  | OVER2 => some 4
  | ROT2 => some 6
  | SWAP2 => some 4
  | OVER => some 2
  | SWAP => some 2
  | TUCK => some 2
  | ROT => some 3
  | _ => none

end vm
end Coingod

namespace Coingod
namespace api

/-! ## api/errors.go -/

/-- Modelled from the spec: `httperror.Info` of package `net/http/httperror`,
which is not among the sources.  The "protocol-stable response code" record an
error is mapped to; its three fields are the three positional values of the
composite literals in `respErrFormatter`. -/
structure Info where
  HTTPStatus : Nat
  ChainCode : String
  Message : String
  deriving DecidableEq, Repr

/-- Modelled from the spec: `httperror.Response` of package
`net/http/httperror`, which is not among the sources; only the embedded `Info`
is read here. -/
structure Response where
  Info : Info
  deriving DecidableEq, Repr

/-- The error sentinels that are keys of `respErrFormatter`, named
`package_Name` after the Go value `package.Name` (package `api` itself for
the unqualified ones). -/
inductive ErrKey where
  | api_ErrDefault
  | signers_ErrBadQuorum
  | signers_ErrBadXPub
  | signers_ErrNoXPubs
  | signers_ErrDupeXPub
  | contract_ErrContractDuplicated
  | contract_ErrContractNotFound
  | account_ErrInsufficient
  | account_ErrImmature
  | account_ErrReserved
  | account_ErrMatchUTXO
  | api_ErrBadActionType
  | api_ErrBadAction
  | api_ErrBadActionConstruction
  | txbuilder_ErrMissingFields
  | txbuilder_ErrBadAmount
  | account_ErrFindAccount
  | asset_ErrFindAsset
  | txbuilder_ErrBadContractArgType
  | txbuilder_ErrOrphanTx
  | txbuilder_ErrExtTxFee
  | txbuilder_ErrNoGasInput
  | validation_ErrTxVersion
  | validation_ErrWrongTransactionSize
  | validation_ErrBadTimeRange
  | validation_ErrNotStandardTx
  | validation_ErrWrongCoinbaseTransaction
  | validation_ErrWrongCoinbaseAsset
  | validation_ErrCoinbaseArbitraryOversize
  | validation_ErrEmptyResults
  | validation_ErrMismatchedAssetID
  | validation_ErrMismatchedPosition
  | validation_ErrMismatchedReference
  | validation_ErrMismatchedValue
  | validation_ErrMissingField
  | validation_ErrNoSource
  | validation_ErrOverflow
  | validation_ErrPosition
  | validation_ErrUnbalanced
  | validation_ErrOverGasCredit
  | validation_ErrGasCalculate
  | vm_ErrAltStackUnderflow
  | vm_ErrBadValue
  | vm_ErrContext
  | vm_ErrDataStackUnderflow
  | vm_ErrDisallowedOpcode
  | vm_ErrDivZero
  | vm_ErrFalseVMResult
  | vm_ErrLongProgram
  | vm_ErrRange
  | vm_ErrReturn
  | vm_ErrRunLimitExceeded
  | vm_ErrShortProgram
  | vm_ErrToken
  | vm_ErrUnexpected
  | vm_ErrUnsupportedVM
  | vm_ErrVerifyFailed
  | pseudohsm_ErrDuplicateKeyAlias
  | pseudohsm_ErrLoadKey
  | pseudohsm_ErrDecrypt
  deriving DecidableEq, Repr

/-- The keys that are errors of package `vm`. -/
def ErrKey.isVM : ErrKey → Bool
  | vm_ErrAltStackUnderflow | vm_ErrBadValue | vm_ErrContext | vm_ErrDataStackUnderflow
  | vm_ErrDisallowedOpcode | vm_ErrDivZero | vm_ErrFalseVMResult | vm_ErrLongProgram
  | vm_ErrRange | vm_ErrReturn | vm_ErrRunLimitExceeded | vm_ErrShortProgram | vm_ErrToken
  | vm_ErrUnexpected | vm_ErrUnsupportedVM | vm_ErrVerifyFailed => true
  | _ => false

/-- The keys that are errors of package `validation`. -/
def ErrKey.isValidation : ErrKey → Bool
  | validation_ErrTxVersion | validation_ErrWrongTransactionSize | validation_ErrBadTimeRange
  | validation_ErrNotStandardTx | validation_ErrWrongCoinbaseTransaction
  | validation_ErrWrongCoinbaseAsset | validation_ErrCoinbaseArbitraryOversize
  | validation_ErrEmptyResults | validation_ErrMismatchedAssetID
  | validation_ErrMismatchedPosition | validation_ErrMismatchedReference
  | validation_ErrMismatchedValue | validation_ErrMissingField | validation_ErrNoSource
  | validation_ErrOverflow | validation_ErrPosition | validation_ErrUnbalanced
  | validation_ErrOverGasCredit | validation_ErrGasCalculate => true
  | _ => false

/-- The function `isTemporary(info, err)`.  Of `err` only
`errors.Data(err)["actions"]` is read: `actions` is `some errs` when that value
is a `[]httperror.Response` and `none` otherwise (also for a nil `err`, as in
the recursive calls), in which case the unchecked type assertion panics.  The
result `none` is that panic.  In the loop, `temp && isTemporary(..)` does not
evaluate the call once `temp` is false. -/
def isTemporary (info : Info) (actions : Option (List Response)) : Option Bool :=
  if info.ChainCode = "CG000" then some true -- internal server error
  else if info.ChainCode = "CG001" then some true -- request timed out
  else if info.ChainCode = "CG761" then some true -- outputs currently reserved
  else if info.ChainCode = "CG706" then -- 1 or more action errors
    match actions with
    | none => none
    | some errs =>
      errs.foldl
        (fun temp actionErr =>
          match temp with
          | some true => isTemporary actionErr.Info none
          | other => other)
        (some true)
  else some false
termination_by (if actions.isSome then 1 else 0)
decreasing_by simp

/-- The table `respErrFormatter`, in source order. -/
def respErrFormatter : List (ErrKey × Info) :=
  [ (ErrKey.api_ErrDefault, ⟨500, "CG000", "Coingod API Error"⟩),
    -- Signers error namespace (2xx)
    (ErrKey.signers_ErrBadQuorum, ⟨400, "CG200", "Quorum must be greater than or equal to 1, and must be less than or equal to the length of xpubs"⟩),
    (ErrKey.signers_ErrBadXPub, ⟨400, "CG201", "Invalid xpub format"⟩),
    (ErrKey.signers_ErrNoXPubs, ⟨400, "CG202", "At least one xpub is required"⟩),
    (ErrKey.signers_ErrDupeXPub, ⟨400, "CG203", "Root XPubs cannot contain the same key more than once"⟩),
    -- Contract error namespace (3xx)
    (ErrKey.contract_ErrContractDuplicated, ⟨400, "CG302", "Contract is duplicated"⟩),
    (ErrKey.contract_ErrContractNotFound, ⟨400, "CG303", "Contract not found"⟩),
    -- Transaction error namespace (7xx)
    -- Build transaction error namespace (70x ~ 72x)
    (ErrKey.account_ErrInsufficient, ⟨400, "CG700", "Funds of account are insufficient"⟩),
    (ErrKey.account_ErrImmature, ⟨400, "CG701", "Available funds of account are immature"⟩),
    (ErrKey.account_ErrReserved, ⟨400, "CG702", "Available UTXOs of account have been reserved"⟩),
    (ErrKey.account_ErrMatchUTXO, ⟨400, "CG703", "UTXO with given hash not found"⟩),
    (ErrKey.api_ErrBadActionType, ⟨400, "CG704", "Invalid action type"⟩),
    (ErrKey.api_ErrBadAction, ⟨400, "CG705", "Invalid action object"⟩),
    (ErrKey.api_ErrBadActionConstruction, ⟨400, "CG706", "Invalid action construction"⟩),
    (ErrKey.txbuilder_ErrMissingFields, ⟨400, "CG707", "One or more fields are missing"⟩),
    (ErrKey.txbuilder_ErrBadAmount, ⟨400, "CG708", "Invalid asset amount"⟩),
    (ErrKey.account_ErrFindAccount, ⟨400, "CG709", "Account not found"⟩),
    (ErrKey.asset_ErrFindAsset, ⟨400, "CG710", "Asset not found"⟩),
    (ErrKey.txbuilder_ErrBadContractArgType, ⟨400, "CG711", "Invalid contract argument type"⟩),
    (ErrKey.txbuilder_ErrOrphanTx, ⟨400, "CG712", "Transaction input UTXO not found"⟩),
    (ErrKey.txbuilder_ErrExtTxFee, ⟨400, "CG713", "Transaction fee exceeded max limit"⟩),
    (ErrKey.txbuilder_ErrNoGasInput, ⟨400, "CG714", "Transaction has no gas input"⟩),
    -- Submit transaction error namespace (73x ~ 79x)
    -- Validation error (73x ~ 75x)
    (ErrKey.validation_ErrTxVersion, ⟨400, "CG730", "Invalid transaction version"⟩),
    (ErrKey.validation_ErrWrongTransactionSize, ⟨400, "CG731", "Invalid transaction size"⟩),
    (ErrKey.validation_ErrBadTimeRange, ⟨400, "CG732", "Invalid transaction time range"⟩),
    (ErrKey.validation_ErrNotStandardTx, ⟨400, "CG733", "Not standard transaction"⟩),
    (ErrKey.validation_ErrWrongCoinbaseTransaction, ⟨400, "CG734", "Invalid coinbase transaction"⟩),
    (ErrKey.validation_ErrWrongCoinbaseAsset, ⟨400, "CG735", "Invalid coinbase assetID"⟩),
    (ErrKey.validation_ErrCoinbaseArbitraryOversize, ⟨400, "CG736", "Invalid coinbase arbitrary size"⟩),
    (ErrKey.validation_ErrEmptyResults, ⟨400, "CG737", "No results in the transaction"⟩),
    (ErrKey.validation_ErrMismatchedAssetID, ⟨400, "CG738", "Mismatched assetID"⟩),
    (ErrKey.validation_ErrMismatchedPosition, ⟨400, "CG739", "Mismatched value source/dest position"⟩),
    (ErrKey.validation_ErrMismatchedReference, ⟨400, "CG740", "Mismatched reference"⟩),
    (ErrKey.validation_ErrMismatchedValue, ⟨400, "CG741", "Mismatched value"⟩),
    (ErrKey.validation_ErrMissingField, ⟨400, "CG742", "Missing required field"⟩),
    (ErrKey.validation_ErrNoSource, ⟨400, "CG743", "No source for value"⟩),
    (ErrKey.validation_ErrOverflow, ⟨400, "CG744", "Arithmetic overflow/underflow"⟩),
    (ErrKey.validation_ErrPosition, ⟨400, "CG745", "Invalid source or destination position"⟩),
    (ErrKey.validation_ErrUnbalanced, ⟨400, "CG746", "Unbalanced asset amount between input and output"⟩),
    (ErrKey.validation_ErrOverGasCredit, ⟨400, "CG747", "Gas credit has been spent"⟩),
    (ErrKey.validation_ErrGasCalculate, ⟨400, "CG748", "Gas usage calculate got a math error"⟩),
    -- VM error (76x ~ 78x)
    (ErrKey.vm_ErrAltStackUnderflow, ⟨400, "CG760", "Alt stack underflow"⟩),
    (ErrKey.vm_ErrBadValue, ⟨400, "CG761", "Bad value"⟩),
    (ErrKey.vm_ErrContext, ⟨400, "CG762", "Wrong context"⟩),
    (ErrKey.vm_ErrDataStackUnderflow, ⟨400, "CG763", "Data stack underflow"⟩),
    (ErrKey.vm_ErrDisallowedOpcode, ⟨400, "CG764", "Disallowed opcode"⟩),
    (ErrKey.vm_ErrDivZero, ⟨400, "CG765", "Division by zero"⟩),
    (ErrKey.vm_ErrFalseVMResult, ⟨400, "CG766", "False result for executing VM"⟩),
    (ErrKey.vm_ErrLongProgram, ⟨400, "CG767", "Program size exceeds max int32"⟩),
    (ErrKey.vm_ErrRange, ⟨400, "CG768", "Arithmetic range error"⟩),
    (ErrKey.vm_ErrReturn, ⟨400, "CG769", "RETURN executed"⟩),
    (ErrKey.vm_ErrRunLimitExceeded, ⟨400, "CG770", "Run limit exceeded because the CG Fee is insufficient"⟩),
    (ErrKey.vm_ErrShortProgram, ⟨400, "CG771", "Unexpected end of program"⟩),
    (ErrKey.vm_ErrToken, ⟨400, "CG772", "Unrecognized token"⟩),
    (ErrKey.vm_ErrUnexpected, ⟨400, "CG773", "Unexpected error"⟩),
    (ErrKey.vm_ErrUnsupportedVM, ⟨400, "CG774", "Unsupported VM because the version of VM is mismatched"⟩),
    (ErrKey.vm_ErrVerifyFailed, ⟨400, "CG775", "VERIFY failed"⟩),
    -- Mock HSM error namespace (8xx)
    (ErrKey.pseudohsm_ErrDuplicateKeyAlias, ⟨400, "CG800", "Key Alias already exists"⟩),
    (ErrKey.pseudohsm_ErrLoadKey, ⟨400, "CG801", "Key not found or wrong password"⟩),
    (ErrKey.pseudohsm_ErrDecrypt, ⟨400, "CG802", "Could not decrypt key with given passphrase"⟩) ]

/-- Go's `respErrFormatter[err]` with the comma-ok form: the `Info` of a key. -/
def respErrFormatterAt (err : ErrKey) : Option Info :=
  respErrFormatter.lookup err

end api

namespace consensus

/-! ## consensus/general.go -/

/-- The constant `defaultVotePendingNum`. -/
def defaultVotePendingNum : Nat := 202500

/-- The constant `math.MaxUint64`. -/
def MaxUint64 : Nat := 18446744073709551615

structure VotePendingBlockNum where
  BeginBlock : Nat
  EndBlock : Nat
  Num : Nat
  deriving DecidableEq, Repr

/-- Modelled from the spec: `chainkd.XPub` of package `crypto/ed25519/chainkd`,
which is not among the sources: an extended public key, kept here as the hex
text it is written with. -/
abbrev XPub := String

structure CasperConfig where
  /-- The block time interval for producing a block, in milliseconds. -/
  BlockTimeInterval : Nat
  /-- The max time a block time is allowed to be ahead of the current time. -/
  MaxTimeOffsetMs : Nat
  /-- The block num in one epoch. -/
  BlocksOfEpoch : Nat
  /-- The minimum vote number of become validator. -/
  MinValidatorVoteNum : Nat
  /-- The locked block number of vote utxo. -/
  VotePendingBlockNums : List VotePendingBlockNum
  FederationXpubs : List XPub
  deriving DecidableEq, Repr

/-- The config for different network; `CasperConfig` is an embedded struct. -/
structure Params extends CasperConfig where
  Name : String
  Bech32HRPSegwit : String
  DefaultPort : String
  DNSSeeds : List String
  deriving DecidableEq, Repr

/-- The function `xpub`: the key written as `str` (the text is 128 hex digits
at every call in this file, so `UnmarshalText` does not fail). -/
def xpub (str : String) : XPub := str

/-- MainNetParams is the config for production. -/
def MainNetParams : Params where
  Name := "main"
  Bech32HRPSegwit := "cg"
  DefaultPort := "46657"
  DNSSeeds := []
  BlockTimeInterval := 6000
  MaxTimeOffsetMs := 3000
  BlocksOfEpoch := 10
  MinValidatorVoteNum := 300000000000000
  VotePendingBlockNums := [⟨0, MaxUint64, defaultVotePendingNum⟩]
  FederationXpubs :=
    [xpub "8c675cc0d0de07618dedd702fe54321f3dd0ab46b4b50deac4b87940ac0a974f79b9e33ca3161bf8cbd8d64b8214bd85db2e9bb04be0393f41041278278530c3"]

/-- TestNetParams is the config for test-net. -/
def TestNetParams : Params where
  Name := "test"
  Bech32HRPSegwit := "tc"
  DefaultPort := "46656"
  DNSSeeds := []
  BlockTimeInterval := 6000
  MaxTimeOffsetMs := 3000
  BlocksOfEpoch := 100
  MinValidatorVoteNum := 100000000
  VotePendingBlockNums := [⟨0, MaxUint64, 10⟩]
  FederationXpubs :=
    [xpub "8c675cc0d0de07618dedd702fe54321f3dd0ab46b4b50deac4b87940ac0a974f79b9e33ca3161bf8cbd8d64b8214bd85db2e9bb04be0393f41041278278530c3"]

/-- SoloNetParams is the config for the solo net (`DefaultPort` and `DNSSeeds`
are not set: the zero values). -/
def SoloNetParams : Params where
  Name := "solo"
  Bech32HRPSegwit := "sc"
  DefaultPort := ""
  DNSSeeds := []
  BlockTimeInterval := 6000
  MaxTimeOffsetMs := 24000
  BlocksOfEpoch := 100
  MinValidatorVoteNum := 100000000
  VotePendingBlockNums := [⟨0, MaxUint64, 10⟩]
  FederationXpubs := []

/-- The zero value of `Params`, which indexing a Go map yields for a missing
key. -/
def zeroParams : Params where
  Name := ""
  Bech32HRPSegwit := ""
  DefaultPort := ""
  DNSSeeds := []
  BlockTimeInterval := 0
  MaxTimeOffsetMs := 0
  BlocksOfEpoch := 0
  MinValidatorVoteNum := 0
  VotePendingBlockNums := []
  FederationXpubs := []

/-- NetParams is the correspondence between chain_id and Params. -/
def NetParams : List (String × Params) :=
  [ ("mainnet", MainNetParams),
    ("wisdom", TestNetParams),
    ("solonet", SoloNetParams) ]

/-- Go's `v, exist = m[key]` on a map with `Params` values. -/
def mapIndex (m : List (String × Params)) (key : String) : Params × Bool :=
  match m.lookup key with
  | some v => (v, true)
  | none => (zeroParams, false)

/-- The function `VotePendingBlockNums(height)`, reading the package variable
`ActiveNetParams`; `height` is a uint64. -/
def VotePendingBlockNums (ActiveNetParams : Params) (height : Nat) : Nat :=
  match ActiveNetParams.VotePendingBlockNums.find?
      (fun pendingNum => decide (height ≥ pendingNum.BeginBlock ∧ height < pendingNum.EndBlock)) with
  | some pendingNum => pendingNum.Num
  | none => defaultVotePendingNum

/-- The function `InitActiveNetParams(chainID)`: the new value of the package
variable `ActiveNetParams` (assigned by the `if` statement's initialiser
whether or not the key exists) and the returned error, `none` for nil. -/
def InitActiveNetParams (chainID : String) : Params → Params × Option String :=
  fun _ =>
    if !(mapIndex NetParams chainID).2 then
      ((mapIndex NetParams chainID).1, some ("chain_id[" ++ chainID ++ "] don\x27t exist"))
    else ((mapIndex NetParams chainID).1, none)

end consensus
end Coingod

namespace Coingod
namespace vm

/-- What a second run of an opcode, on the same stacks with another run limit,
may do when the first run succeeded leaving the machine `a1`: return nil with
the machine `a1` up to the run limit (so the same data and alt stack), or
return ErrRunLimitExceeded. -/
def SameOrRunLimit (a1 : virtualMachine) (ob : Outcome) : Prop :=
  (∃ L2 : Int, ob = Outcome.ret none { a1 with runLimit := L2 }) ∨
  (∃ v : virtualMachine, ob = Outcome.ret (some VMError.ErrRunLimitExceeded) v)

end vm
end Coingod

namespace Coingod
namespace consensus

/-! ## consensus/general.go: constants used by the genesis transactions -/

/-- The constant `InitCGSupply`. -/
def InitCGSupply : Nat := 320000000000000

/-- The constant `CoinbaseArbitrarySizeLimit`. -/
def CoinbaseArbitrarySizeLimit : Nat := 128

/-- Modelled from the spec: `bc.AssetID` of package `protocol/bc`, which is not
among the sources: the "256-bit fixed-width identifier", held as four 64-bit
words `V0 .. V3`. -/
structure AssetID where
  V0 : Nat
  V1 : Nat
  V2 : Nat
  V3 : Nat
  deriving DecidableEq, Repr

/-- Go's `binary.BigEndian.Uint64(b)`: the big-endian value of the first eight
bytes of `b`; `none` is the runtime panic for a shorter slice. -/
def BigEndianUint64 (b : List UInt8) : Option Nat :=
  if b.length < 8 then none
  else some ((b.take 8).foldl (fun acc x => acc * 256 + x.toNat) 0)

/-- CGAssetID is CG's asset id: each word is `binary.BigEndian.Uint64` of
eight bytes 0xff (`none` would be the panic of a failed conversion). -/
def CGAssetID : Option AssetID :=
  match BigEndianUint64 [0xff, 0xff, 0xff, 0xff, 0xff, 0xff, 0xff, 0xff],
      BigEndianUint64 [0xff, 0xff, 0xff, 0xff, 0xff, 0xff, 0xff, 0xff],
      BigEndianUint64 [0xff, 0xff, 0xff, 0xff, 0xff, 0xff, 0xff, 0xff],
      BigEndianUint64 [0xff, 0xff, 0xff, 0xff, 0xff, 0xff, 0xff, 0xff] with
  | some v0, some v1, some v2, some v3 => some ⟨v0, v1, v2, v3⟩
  | _, _, _, _ => none

end consensus

namespace config

/-! ## config/genesis_tx.go -/

/-- Value of one hexadecimal digit, as `encoding/hex` reads it (both cases). -/
def fromHexChar (c : Char) : Option Nat :=
  if '0' ≤ c ∧ c ≤ '9' then some (c.toNat - '0'.toNat)
  else if 'a' ≤ c ∧ c ≤ 'f' then some (c.toNat - 'a'.toNat + 10)
  else if 'A' ≤ c ∧ c ≤ 'F' then some (c.toNat - 'A'.toNat + 10)
  else none

/-- Decoding of a list of hexadecimal digits, two per byte; `none` for a digit
that is not hexadecimal or an odd number of digits. -/
def decodeHexChars : List Char → Option (List UInt8)
  | [] => some []
  | [_] => none
  | hi :: lo :: rest =>
    match fromHexChar hi, fromHexChar lo, decodeHexChars rest with
    | some h, some l, some bs => some (UInt8.ofNat (h * 16 + l) :: bs)
    | _, _, _ => none

/-- Go's `hex.DecodeString(s)`; `none` stands for a non-nil error. -/
def DecodeString (s : String) : Option (List UInt8) :=
  decodeHexChars s.data

/-- Go's `[]byte(s)`: the UTF-8 bytes of a string. -/
def bytesOfString (s : String) : List UInt8 :=
  s.toUTF8.data.toList

/-- Modelled from the spec: the typed inputs of package `protocol/bc/types`,
which is not among the sources: a coinbase input carries the "arbitrary-data
payload", an issuance input what `NewIssuanceInput` is given. -/
inductive TypedInput where
  | CoinbaseInput (Arbitrary : List UInt8)
  | IssuanceInput (Nonce : List UInt8) (Amount : Nat) (AssetDefinition : List UInt8)
      (VMVersion : Nat) (IssuanceProgram : List UInt8) (Arguments : List (List UInt8))
  deriving DecidableEq, Repr

/-- Modelled from the spec: `types.TxInput`, which is not among the sources. -/
structure TxInput where
  AssetVersion : Nat
  TypedInput : TypedInput
  deriving DecidableEq, Repr

/-- Modelled from the spec: `types.TxOutput` with an original output, which is
not among the sources: asset, amount, control program and state data. -/
structure TxOutput where
  AssetVersion : Nat
  AssetId : consensus.AssetID
  Amount : Nat
  VMVersion : Nat
  ControlProgram : List UInt8
  StateData : List (List UInt8)
  deriving DecidableEq, Repr

/-- Modelled from the spec: `types.TxData`, which is not among the sources: "an
ordered sequence of inputs and outputs plus a version". -/
structure TxData where
  Version : Nat
  Inputs : List TxInput
  Outputs : List TxOutput
  deriving DecidableEq, Repr

/-- Modelled from the spec: `types.Tx`, which is not among the sources; of the
transaction `NewTx` builds only the `TxData` it wraps is kept. -/
structure Tx where
  TxData : TxData
  deriving DecidableEq, Repr

/-- Modelled from the spec: `types.NewCoinbaseInput`, which is not among the
sources. -/
def NewCoinbaseInput (arbitrary : List UInt8) : TxInput :=
  ⟨1, TypedInput.CoinbaseInput arbitrary⟩

/-- Modelled from the spec: `types.NewIssuanceInput`, which is not among the
sources. -/
def NewIssuanceInput (nonce : List UInt8) (amount : Nat) (issuanceProgram : List UInt8)
    (arguments : List (List UInt8)) (assetDefinition : List UInt8) : TxInput :=
  ⟨1, TypedInput.IssuanceInput nonce amount assetDefinition 1 issuanceProgram arguments⟩

/-- Modelled from the spec: `types.NewOriginalTxOutput`, which is not among the
sources. -/
def NewOriginalTxOutput (assetID : consensus.AssetID) (amount : Nat)
    (controlProgram : List UInt8) (stateData : List (List UInt8)) : TxOutput :=
  ⟨1, assetID, amount, 1, controlProgram, stateData⟩

/-- Modelled from the spec: `types.NewTx`, which is not among the sources. -/
def NewTx (data : TxData) : Tx := ⟨data⟩

/-- Modelled from the spec: `bc.NewAssetID` of package `protocol/bc`, which is
not among the sources: the four big-endian 64-bit words of a 32-byte array. -/
def NewAssetID (b : List UInt8) : Option consensus.AssetID :=
  match consensus.BigEndianUint64 (b.drop 0), consensus.BigEndianUint64 (b.drop 8),
      consensus.BigEndianUint64 (b.drop 16), consensus.BigEndianUint64 (b.drop 24) with
  | some v0, some v1, some v2, some v3 => some ⟨v0, v1, v2, v3⟩
  | _, _, _, _ => none

/-- AssetIssue asset issue params. -/
structure AssetIssue where
  NonceStr : String
  IssuanceProgramStr : String
  AssetDefinitionStr : String
  AssetIDStr : String
  Amount : Nat
  deriving DecidableEq, Repr

/-- The method `nonce`; `none` is its panic. -/
def AssetIssue.nonce (a : AssetIssue) : Option (List UInt8) :=
  DecodeString a.NonceStr

/-- The method `issuanceProgram`; `none` is its panic. -/
def AssetIssue.issuanceProgram (a : AssetIssue) : Option (List UInt8) :=
  DecodeString a.IssuanceProgramStr

/-- The method `assetDefinition`; `none` is its panic. -/
def AssetIssue.assetDefinition (a : AssetIssue) : Option (List UInt8) :=
  DecodeString a.AssetDefinitionStr

/-- The method `id`: the decoded text copied into a zeroed 32-byte array
(`copy` takes at most 32 bytes); `none` is its panic. -/
def AssetIssue.id (a : AssetIssue) : Option consensus.AssetID :=
  match DecodeString a.AssetIDStr with
  | none => none
  | some bytes => NewAssetID ((bytes.take 32) ++ List.replicate (32 - (bytes.take 32).length) 0)

/-- The package variable `assetIssues`. -/
def assetIssues : List AssetIssue :=
  [ { NonceStr := "8e972359c6441299",
      IssuanceProgramStr := "ae20d66ab117eca2bba6aefed569e52d6bf68a7a4ad7d775cbc01f7b2cfcd798f7b22031ab3c2147c330c5e360b4e585047d1dea5f529476ad5aff475ecdd55541923120851b4a24975df6dbeb4f8e5348542764f85bed67b763875325aa5e45116751b35253ad",
      AssetDefinitionStr := "7b22646563696d616c73223a382c226465736372697074696f6e223a225472756d702c2054686520476f64204f6620436f696e73222c226e616d65223a225472756d70222c2271756f72756d223a312c2272656973737565223a66616c73652c2273796d626f6c223a225452554d50227d",
      AssetIDStr := "f211a4285e0679f23188e6f44052d6ebd727ce1df088208a36f5ad9843f244b2",
      Amount := 100000000000000 } ]

/-- The loop `for _, asset := range assetIssues` of `GenesisTxs`, from the
current `inputs` and `outputs`; `none` is a panic of one of the decoders. -/
def issueLoop (contract : List UInt8) :
    List AssetIssue → List TxInput → List TxOutput → Option (List TxInput × List TxOutput)
  | [], inputs, outputs => some (inputs, outputs)
  | asset :: rest, inputs, outputs =>
    match asset.nonce, asset.issuanceProgram, asset.assetDefinition, asset.id with
    | some nonce, some prog, some defn, some id =>
      issueLoop contract rest
        (inputs ++ [NewIssuanceInput nonce asset.Amount prog [] defn])
        (outputs ++ [NewOriginalTxOutput id asset.Amount contract []])
    | _, _, _, _ => none

/-- GenesisTxs make genesis block txs; `none` is a panic (a failed hex
decoding, or the nil `CGAssetID`). -/
def GenesisTxs : Option (List Tx) :=
  match DecodeString "0014f09582056ca6dea02c11c136a831fd25d090927e", consensus.CGAssetID with
  | some contract, some cgAssetID =>
    match issueLoop contract assetIssues [] [] with
    | none => none
    | some io =>
      some
        (([] ++
          [NewTx
            { Version := 1,
              Inputs := [NewCoinbaseInput (bytesOfString
                "Information is power. -- Jan/11/2013. Computing is power. -- Apr/24/2024.")],
              Outputs := [NewOriginalTxOutput cgAssetID consensus.InitCGSupply contract []] }]) ++
          [NewTx { Version := 1, Inputs := io.1, Outputs := io.2 }])
  | _, _ => none

/-- Whether an input is a coinbase input. -/
def TxInput.isCoinbase (i : TxInput) : Bool :=
  match i.TypedInput with
  | TypedInput.CoinbaseInput _ => true
  | _ => false

/-- The arbitrary-data payload of a coinbase input (`none` for another input). -/
def TxInput.arbitrary (i : TxInput) : Option (List UInt8) :=
  match i.TypedInput with
  | TypedInput.CoinbaseInput a => some a
  | _ => none

end config
end Coingod

/-! # Theorems -/

namespace Coingod
namespace vm

/-! ## Basic facts about the helpers -/

/-- The numerals used in the 64-bit conversions are the powers of two they
stand for. -/
theorem int64_constants :
    (9223372036854775808 : Int) = 2 ^ 63 ∧ (18446744073709551616 : Int) = 2 ^ 64 ∧
    MaxInt64 = 2 ^ 63 - 1 ∧ MinInt64 = -(2 ^ 63) ∧
    toUint64 (2 ^ 64 + 5) = 5 ∧ Uint64 (2 ^ 64 + 5) = 5 := by
  refine ⟨by norm_num, by norm_num, by norm_num [MaxInt64], by norm_num [MinInt64], ?_, ?_⟩
  · norm_num [toUint64]
  · norm_num [Uint64]

theorem toInt64_of_fits (x : Int) (h1 : -(2 ^ 63) ≤ x) (h2 : x < 2 ^ 63) : toInt64 x = x := by
  unfold toInt64
  split <;> omega

theorem applyCost_of_le (vm : virtualMachine) (n : Int) (h : n ≤ vm.runLimit) :
    applyCost vm n = (none, { vm with runLimit := vm.runLimit - n }) := by
  unfold applyCost
  rw [if_neg (by omega)]

theorem applyCost_of_lt (vm : virtualMachine) (n : Int) (h : vm.runLimit < n) :
    applyCost vm n = (some VMError.ErrRunLimitExceeded, { vm with runLimit := 0 }) := by
  unfold applyCost
  rw [if_pos (by omega)]

/-! ## C1: opcodes with an up-front depth guard -/

/-- C1: every opcode of stack.go that tests the stack depth right after its
fixed-cost debit (required depth `k = op.guardDepth`), run on a machine whose
run limit covers the fixed cost but whose stack (the alt stack for
FROMALTSTACK, the data stack otherwise) holds fewer than `k` items, returns the
underflow error (ErrAltStackUnderflow for FROMALTSTACK, ErrDataStackUnderflow
otherwise) and leaves the data stack and the alt stack exactly as they were. -/
theorem upfront_guard_underflow_keeps_stacks (op : StackOp) (k : Nat) (vm : virtualMachine)
    (hk : op.guardDepth = some k) (hcost : op.fixedCost ≤ vm.runLimit)
    (hshallow : (if op = StackOp.FROMALTSTACK then vm.altStack.length
      else vm.dataStack.length) < k) :
    ∃ vm1, op.fn vm = Outcome.ret (some (if op = StackOp.FROMALTSTACK
        then VMError.ErrAltStackUnderflow else VMError.ErrDataStackUnderflow)) vm1 ∧
      vm1.dataStack = vm.dataStack ∧ vm1.altStack = vm.altStack ∧
      vm1.runLimit = vm.runLimit - op.fixedCost := by
  cases op <;> simp [StackOp.guardDepth] at hk <;> subst hk <;>
    simp [StackOp.fixedCost] at hcost <;> simp at hshallow <;>
    simp [StackOp.fn, StackOp.fixedCost, opToAltStack, opFromAltStack, op2Dup, op3Dup, opDup, nDup,
      op2Over, op2Rot, op2Swap, opOver, opSwap, opTuck, opRot, rot,
      applyCost_of_le _ _ hcost, toInt64_of_fits, hshallow]

/-- Witness for C1: 2ROT (guard depth 6) on a two-item data stack. -/
theorem upfront_guard_underflow_keeps_stacks_witness :
    StackOp.guardDepth StackOp.ROT2 = some 6 ∧
    ∃ vm1, StackOp.fn StackOp.ROT2 ⟨10, 0, [[1], [2]], [[7]]⟩ =
        Outcome.ret (some (if StackOp.ROT2 = StackOp.FROMALTSTACK
          then VMError.ErrAltStackUnderflow else VMError.ErrDataStackUnderflow)) vm1 ∧
      vm1.dataStack = [[1], [2]] ∧ vm1.altStack = [[7]] ∧
      vm1.runLimit = 10 - StackOp.fixedCost StackOp.ROT2 :=
  ⟨rfl, upfront_guard_underflow_keeps_stacks StackOp.ROT2 6 ⟨10, 0, [[1], [2]], [[7]]⟩
    rfl (by decide) (by decide)⟩

/-! ## C2: 2DROP and NIP on a one-item stack -/

/-- C2 (evaluation at the failing input): on the one-item data stack `[[1]]`
with run limit 100, `op2Drop` and `opNip` both return ErrDataStackUnderflow,
and the single item is gone: the data stack is empty afterwards. -/
theorem drop2_nip_one_item_lose_item :
    op2Drop ⟨100, 0, [[1]], []⟩ =
      Outcome.ret (some VMError.ErrDataStackUnderflow) ⟨107, 0, [], []⟩ ∧
    opNip ⟨100, 0, [[1]], []⟩ =
      Outcome.ret (some VMError.ErrDataStackUnderflow) ⟨99, 0, [], []⟩ := by
  decide

/-! ## C3: a failed PICK/ROLL has consumed its index -/

theorem pop_dataStack (vm : virtualMachine) (d : Bool) :
    (pop vm d).2.dataStack = vm.dataStack.dropLast ∧ (pop vm d).2.altStack = vm.altStack := by
  unfold pop
  split
  · rename_i h
    simp [List.getLast?_eq_none_iff.mp h]
  · cases d <;> simp [deferCost]

theorem popBigInt_dataStack (vm : virtualMachine) (d : Bool) :
    (popBigInt vm d).2.dataStack = vm.dataStack.dropLast ∧
      (popBigInt vm d).2.altStack = vm.altStack := by
  have h := pop_dataStack vm d
  unfold popBigInt
  split <;> rename_i heq <;> rw [heq] at h <;> exact h

theorem applyCost_stacks (vm : virtualMachine) (n : Int) :
    (applyCost vm n).2.dataStack = vm.dataStack ∧ (applyCost vm n).2.altStack = vm.altStack := by
  unfold applyCost
  split <;> simp

/-- The error of an `applyCost` is the run-limit error. -/
theorem applyCost_err (vm : virtualMachine) (n : Int) (e : VMError)
    (h : (applyCost vm n).1 = some e) : e = VMError.ErrRunLimitExceeded := by
  unfold applyCost at h
  split at h <;> simp at h
  exact h.symm

theorem pushDataStack_err (vm : virtualMachine) (x : List UInt8) (e : VMError)
    (h : (pushDataStack vm x false).1 = some e) :
    e = VMError.ErrRunLimitExceeded ∧ (pushDataStack vm x false).2.dataStack = vm.dataStack ∧
      (pushDataStack vm x false).2.altStack = vm.altStack := by
  unfold pushDataStack at h ⊢
  simp only [Bool.false_eq_true, if_false] at h ⊢
  have hs := applyCost_stacks vm (8 + (x.length : Int))
  have he := applyCost_err vm (8 + (x.length : Int))
  split at h <;> rename_i heq <;> rw [heq] at hs he <;> simp at h hs he ⊢
  exact ⟨by subst h; exact he, hs⟩

theorem rot_err_stacks (vm vm1 : virtualMachine) (n : Int) (e : VMError)
    (h : rot vm n = Outcome.ret (some e) vm1) : vm1 = vm := by
  unfold rot at h
  split at h
  · simp at h; exact h.2.symm
  · split at h
    · simp at h; exact h.2.symm
    · split at h <;> simp at h

theorem AddInt64_one_cases (a : Int) :
    AddInt64 a 1 = (0, false) ∨ AddInt64 a 1 = (a + 1, true) := by
  unfold AddInt64
  split
  · exact Or.inl rfl
  · exact Or.inr rfl

/-- C3 (counterexample): on the data stack `[[1], [2], [3], [3]]` (index 3
over three items) `opPick` and `opRoll` fail with ErrDataStackUnderflow, and
the data stack after the call is `[[1], [2], [3]]`, not the stack before it:
the index operand has been consumed. -/
theorem pick_roll_failure_consumes_index_example :
    opPick ⟨100, 0, [[1], [2], [3], [3]], []⟩ =
      Outcome.ret (some VMError.ErrDataStackUnderflow) ⟨107, 0, [[1], [2], [3]], []⟩ ∧
    opRoll ⟨100, 0, [[1], [2], [3], [3]], []⟩ =
      Outcome.ret (some VMError.ErrDataStackUnderflow) ⟨107, 0, [[1], [2], [3]], []⟩ ∧
    ([[1], [2], [3]] : List (List UInt8)) ≠ [[1], [2], [3], [3]] := by
  decide

/-- C3 (amended): whenever `opPick` or `opRoll` fails with
ErrDataStackUnderflow or ErrBadValue, the data stack after the call is the
data stack before it without its top item (`dropLast`; on an empty stack,
where there is no index to pop, that is the unchanged empty stack), and the
alt stack is unchanged. -/
theorem pick_roll_failure_drops_index (op : StackOp) (vm vm1 : virtualMachine) (e : VMError)
    (hop : op = StackOp.PICK ∨ op = StackOp.ROLL)
    (he : e = VMError.ErrDataStackUnderflow ∨ e = VMError.ErrBadValue)
    (h : op.fn vm = Outcome.ret (some e) vm1) :
    vm1.dataStack = vm.dataStack.dropLast ∧ vm1.altStack = vm.altStack := by
  have hne : e ≠ VMError.ErrRunLimitExceeded := by
    rcases he with he | he <;> subst he <;> decide
  have hc := applyCost_stacks vm 2
  have hce := applyCost_err vm 2
  rcases hac : applyCost vm 2 with ⟨r, vm2⟩
  rw [hac] at hc hce
  have hp := popBigInt_dataStack vm2 false
  rw [hc.1, hc.2] at hp
  rcases hpb : popBigInt vm2 false with ⟨r2, vm3⟩
  rw [hpb] at hp
  rcases hop with hop | hop <;> subst hop <;> simp only [StackOp.fn] at h
  · unfold opPick at h
    rw [hac] at h
    cases r with
    | some err =>
      simp only [Outcome.ret.injEq, Option.some.injEq] at h
      exact absurd (hce _ (by rw [h.1])) hne
    | none =>
      simp only at h
      rw [hpb] at h
      cases r2 with
      | error err =>
        simp only [Outcome.ret.injEq, Option.some.injEq] at h
        rw [← h.2]; exact hp
      | ok n =>
        simp only at h
        generalize toInt64 (Uint64 n) = a at h
        rcases AddInt64_one_cases a with hadd | hadd <;> rw [hadd] at h <;>
          simp only at h
        · simp only [Outcome.ret.injEq, Option.some.injEq] at h
          rw [← h.2]; exact hp
        · split at h
          · simp only [Outcome.ret.injEq, Option.some.injEq] at h
            rw [← h.2]; exact hp
          · split at h
            · exact absurd h (by simp)
            · rename_i x _
              have hpe := pushDataStack_err vm3 x e
              rcases hpd : pushDataStack vm3 x false with ⟨r3, vm4⟩
              rw [hpd] at h hpe
              cases r3 with
              | none => exact absurd h (by simp)
              | some err =>
                simp only [Outcome.ret.injEq, Option.some.injEq] at h
                exact absurd (hpe (by rw [h.1])).1 hne
  · unfold opRoll at h
    rw [hac] at h
    cases r with
    | some err =>
      simp only [Outcome.ret.injEq, Option.some.injEq] at h
      exact absurd (hce _ (by rw [h.1])) hne
    | none =>
      simp only at h
      rw [hpb] at h
      cases r2 with
      | error err =>
        simp only [Outcome.ret.injEq, Option.some.injEq] at h
        rw [← h.2]; exact hp
      | ok n =>
        simp only at h
        generalize toInt64 (Uint64 n) = a at h
        rcases AddInt64_one_cases a with hadd | hadd <;> rw [hadd] at h <;>
          simp only at h
        · simp only [Outcome.ret.injEq, Option.some.injEq] at h
          rw [← h.2]; exact hp
        · have := rot_err_stacks _ _ _ _ h
          rw [this]; exact hp
end vm
end Coingod

namespace Coingod
namespace vm

/-- Witness for C3 (amended): PICK with index 3 over three items. -/
theorem pick_roll_failure_drops_index_witness :
    StackOp.fn StackOp.PICK ⟨100, 0, [[1], [2], [3], [3]], [[9]]⟩ =
      Outcome.ret (some VMError.ErrDataStackUnderflow) ⟨107, 0, [[1], [2], [3]], [[9]]⟩ ∧
    (([[1], [2], [3]] : List (List UInt8)) = [[1], [2], [3], [3]].dropLast ∧
      ([[9]] : List (List UInt8)) = [[9]]) :=
  ⟨by decide,
   pick_roll_failure_drops_index StackOp.PICK ⟨100, 0, [[1], [2], [3], [3]], [[9]]⟩
    ⟨107, 0, [[1], [2], [3]], [[9]]⟩ VMError.ErrDataStackUnderflow
    (Or.inl rfl) (Or.inl rfl) (by decide)⟩

/-! ## C4: PICK by index -/

theorem leValue_leBytes (k n : Nat) (h : n < 256 ^ k) : leValue (leBytes k n) = n := by
  induction k generalizing n with
  | zero => simp at h; subst h; simp [leBytes, leValue]
  | succ k ih =>
    unfold leBytes
    split
    · rename_i h0; simp [leValue, h0]
    · have hq : n / 256 < 256 ^ k := by
        rw [pow_succ] at h
        exact Nat.div_lt_of_lt_mul (by omega)
      have hb : (UInt8.ofNat (n % 256)).toNat = n % 256 :=
        UInt8.toNat_ofNat_of_lt (Nat.mod_lt n (by decide))
      simp only [leValue, ih _ hq, hb]
      omega

theorem leBytes_length (k n : Nat) : (leBytes k n).length ≤ k := by
  induction k generalizing n with
  | zero => simp [leBytes]
  | succ k ih =>
    unfold leBytes
    split
    · simp
    · simp only [List.length_cons]
      have := ih (n / 256)
      omega

theorem AsBigInt_BigIntBytes (n : Nat) (h : n < 2 ^ 255) : AsBigInt (BigIntBytes n) = Except.ok n := by
  have hmod : n % 2 ^ 256 = n := Nat.mod_eq_of_lt (by omega)
  have hv : leValue (BigIntBytes n) = n := by
    unfold BigIntBytes
    rw [hmod]
    exact leValue_leBytes 32 n (by norm_num; omega)
  have hl : (BigIntBytes n).length ≤ 32 := leBytes_length 32 _
  unfold AsBigInt
  rw [if_neg (by omega), hv, if_neg (by omega)]

theorem pop_append (L dc : Int) (s alt : List (List UInt8)) (x : List UInt8) :
    pop ⟨L, dc, s ++ [x], alt⟩ false =
      (Except.ok x, ⟨toInt64 (L + (8 + (x.length : Int))), dc, s, alt⟩) := by
  simp [pop]

theorem popBigInt_append (L dc : Int) (s alt : List (List UInt8)) (x : List UInt8) :
    popBigInt ⟨L, dc, s ++ [x], alt⟩ false =
      (AsBigInt x, ⟨toInt64 (L + (8 + (x.length : Int))), dc, s, alt⟩) := by
  simp [popBigInt, pop_append]

theorem index_of_nat {α : Type} (s : List α) (i : Nat) : index s (i : Int) = s[i]? := by
  unfold index
  by_cases h : i < s.length
  · simp [h]
  · simp only [Nat.cast_nonneg, Nat.cast_lt, h, and_false, if_false]
    exact (List.getElem?_eq_none (Nat.le_of_not_lt h)).symm

theorem AddInt64_one_of_lt (a : Int) (h : a < 9223372036854775807) :
    AddInt64 a 1 = (a + 1, true) := by
  unfold AddInt64 MaxInt64 MinInt64
  rw [if_neg (by omega)]

theorem AddInt64_one_of_max : AddInt64 9223372036854775807 1 = (0, false) := by
  decide

theorem pushDataStack_of_le (vm : virtualMachine) (x : List UInt8)
    (h : 8 + (x.length : Int) ≤ vm.runLimit) :
    pushDataStack vm x false =
      (none, { vm with runLimit := vm.runLimit - (8 + (x.length : Int)),
                       dataStack := vm.dataStack ++ [x] }) := by
  simp [pushDataStack, applyCost_of_le _ _ h]

theorem pushDataStack_of_lt (vm : virtualMachine) (x : List UInt8)
    (h : vm.runLimit < 8 + (x.length : Int)) :
    pushDataStack vm x false =
      (some VMError.ErrRunLimitExceeded, { vm with runLimit := 0 }) := by
  simp [pushDataStack, applyCost_of_lt _ _ h]

/-- C4: on a data stack `s ++ [encoding of n]` (the whole stack a valid Go
slice, so shorter than 2^63) with run limit at least the fixed cost 2:
if `n < len s` and the run limit, after the refund for the popped index, covers
the push of the picked item, `opPick` succeeds and leaves
`s ++ [s[len s - 1 - n]]`, alt stack untouched; if `n = len s`, `opPick` fails
with ErrDataStackUnderflow (the index popped, `s` left). -/
theorem pick_by_index (s alt : List (List UInt8)) (n : Nat) (L dc : Int)
    (hlen : s.length + 1 < 2 ^ 63) (hL : 2 ≤ L) :
    (∀ item : List UInt8, n < s.length → s[s.length - 1 - n]? = some item →
        L + 6 + ((BigIntBytes n).length : Int) < 2 ^ 63 →
        2 + (8 + (item.length : Int)) ≤ L + (8 + ((BigIntBytes n).length : Int)) →
        opPick ⟨L, dc, s ++ [BigIntBytes n], alt⟩ =
          Outcome.ret none
            ⟨L - 2 + (8 + ((BigIntBytes n).length : Int)) - (8 + (item.length : Int)), dc,
              s ++ [item], alt⟩) ∧
    (n = s.length →
        opPick ⟨L, dc, s ++ [BigIntBytes n], alt⟩ =
          Outcome.ret (some VMError.ErrDataStackUnderflow)
            ⟨toInt64 (L - 2 + (8 + ((BigIntBytes n).length : Int))), dc, s, alt⟩) := by
  have h63 : (2 : Int) ^ 63 = 9223372036854775808 := by norm_num
  have h63n : (2 : Nat) ^ 63 = 9223372036854775808 := by norm_num
  constructor
  · intro item hn hitem hfit hpush
    have hdec : AsBigInt (BigIntBytes n) = Except.ok n :=
      AsBigInt_BigIntBytes n (by
        have : (2 : Nat) ^ 63 ≤ 2 ^ 255 := Nat.pow_le_pow_right (by norm_num) (by norm_num)
        omega)
    have hcast : toInt64 ((Uint64 n : Nat) : Int) = (n : Int) := by
      unfold Uint64
      rw [Nat.mod_eq_of_lt (by omega)]
      exact toInt64_of_fits _ (by omega) (by omega)
    have hidx : toInt64 ((s.length : Int) - ((n : Int) + 1)) = ((s.length - 1 - n : Nat) : Int) := by
      rw [toInt64_of_fits _ (by omega) (by omega)]
      omega
    have hrefund : toInt64 (L - 2 + (8 + ((BigIntBytes n).length : Int))) =
        L - 2 + (8 + ((BigIntBytes n).length : Int)) :=
      toInt64_of_fits _ (by omega) (by omega)
    have hadd : AddInt64 (toInt64 ((Uint64 n : Nat) : Int)) 1 = ((n : Int) + 1, true) := by
      rw [hcast]
      exact AddInt64_one_of_lt _ (by omega)
    have hget : index s (((s.length - 1 - n : Nat) : Int)) = some item := by
      rw [index_of_nat]; exact hitem
    simp only [opPick, applyCost_of_le ⟨L, dc, s ++ [BigIntBytes n], alt⟩ 2 hL, popBigInt_append,
      hdec, hadd, hidx, hget, hrefund]
    rw [if_neg (by omega), pushDataStack_of_le _ _ (by simp only; omega)]
  · intro hn
    have hdec : AsBigInt (BigIntBytes n) = Except.ok n :=
      AsBigInt_BigIntBytes n (by
        have : (2 : Nat) ^ 63 ≤ 2 ^ 255 := Nat.pow_le_pow_right (by norm_num) (by norm_num)
        omega)
    have hcast : toInt64 ((Uint64 n : Nat) : Int) = (n : Int) := by
      unfold Uint64
      rw [Nat.mod_eq_of_lt (by omega)]
      exact toInt64_of_fits _ (by omega) (by omega)
    have hadd : AddInt64 (toInt64 ((Uint64 n : Nat) : Int)) 1 = ((n : Int) + 1, true) := by
      rw [hcast]
      exact AddInt64_one_of_lt _ (by omega)
    simp only [opPick, applyCost_of_le ⟨L, dc, s ++ [BigIntBytes n], alt⟩ 2 hL, popBigInt_append,
      hdec, hadd]
    rw [if_pos (by omega)]

/-- Witness for C4: index 0 on the three-item stack `[[1], [2], [3]]` duplicates
its top, index 3 on it underflows. -/
theorem pick_by_index_witness :
    opPick ⟨100, 0, [[1], [2], [3]] ++ [BigIntBytes 0], []⟩ =
      Outcome.ret none
        ⟨100 - 2 + (8 + ((BigIntBytes 0).length : Int)) - (8 + (([3] : List UInt8).length : Int)),
          0, [[1], [2], [3]] ++ [[3]], []⟩ ∧
    opPick ⟨100, 0, [[1], [2], [3]] ++ [BigIntBytes 3], []⟩ =
      Outcome.ret (some VMError.ErrDataStackUnderflow)
        ⟨toInt64 (100 - 2 + (8 + ((BigIntBytes 3).length : Int))), 0, [[1], [2], [3]], []⟩ :=
  ⟨(pick_by_index [[1], [2], [3]] [] 0 100 0 (by decide) (by decide)).1 [3]
      (by decide) (by decide) (by decide) (by decide),
   (pick_by_index [[1], [2], [3]] [] 3 100 0 (by decide) (by decide)).2 (by decide)⟩

end vm
end Coingod

namespace Coingod
namespace vm

/-! ## C5: index values that do not fit a non-negative int64 offset -/

/-- C5 (evaluation at the failing inputs): with the index 2^64 (nine bytes,
low 64 bits zero) on top of `[[1], [2], [3]]`, `opPick` and `opRoll` do not
fail with ErrBadValue: the value is truncated to index 0, `opPick` returns nil
having duplicated the top item and `opRoll` returns nil; with the index 2^63
(low 64 bits read as the negative int64 -2^63) `opRoll` fails with ErrBadValue
but `opPick` dies with an out-of-range panic. -/
theorem pick_roll_index_truncated :
    BigIntBytes 18446744073709551616 = [0, 0, 0, 0, 0, 0, 0, 0, 1] ∧
    opPick ⟨100, 0, [[1], [2], [3], BigIntBytes 18446744073709551616], []⟩ =
      Outcome.ret none ⟨106, 0, [[1], [2], [3], [3]], []⟩ ∧
    opRoll ⟨100, 0, [[1], [2], [3], BigIntBytes 18446744073709551616], []⟩ =
      Outcome.ret none ⟨115, 0, [[1], [2], [3]], []⟩ ∧
    BigIntBytes 9223372036854775808 = [0, 0, 0, 0, 0, 0, 0, 128] ∧
    opRoll ⟨100, 0, [[1], [2], [3], BigIntBytes 9223372036854775808], []⟩ =
      Outcome.ret (some VMError.ErrBadValue) ⟨114, 0, [[1], [2], [3]], []⟩ ∧
    opPick ⟨100, 0, [[1], [2], [3], BigIntBytes 9223372036854775808], []⟩ = Outcome.panic := by
  decide

/-! ## C6: PICK can index outside the data stack -/

/-- C6 (evaluation at the failing input): with the index 2^64 - 1 (eight bytes
0xff, read as the int64 -1) on top of `[[1], [2], [3]]`, the offset is
`off = -1 + 1 = 0`, the guard `dataStackSize < off` does not fire, the index
read is `dataStackSize - off = 3`, which is not below `dataStackSize = 3`, and
`opPick` ends in the Go runtime panic instead of returning an error. -/
theorem pick_offset_zero_panics :
    AsBigInt [255, 255, 255, 255, 255, 255, 255, 255] = Except.ok 18446744073709551615 ∧
    AddInt64 (toInt64 (Uint64 18446744073709551615)) 1 = (0, true) ∧
    ¬ ((3 : Int) < 0) ∧ ¬ ((3 : Int) - 0 < 3) ∧
    index ([[1], [2], [3]] : List (List UInt8)) (toInt64 (3 - 0)) = none ∧
    opPick ⟨100, 0, [[1], [2], [3], [255, 255, 255, 255, 255, 255, 255, 255]], []⟩ =
      Outcome.panic := by
  refine ⟨rfl, ?_⟩
  decide

/-! ## C7: the fixed cost is debited first -/

theorem toInt64_small : toInt64 1 = 1 ∧ toInt64 2 = 2 ∧ toInt64 3 = 3 := by decide

/-- C7: for every opcode of stack.go and every machine whose run limit is below
the opcode's fixed cost (2 for TOALTSTACK, FROMALTSTACK, 2DROP, 2DUP, 2OVER,
2ROT, 2SWAP, PICK, ROLL, ROT; 3 for 3DUP; 1 for IFDUP, DEPTH, DROP, DUP, NIP,
OVER, SWAP, TUCK), the opcode returns ErrRunLimitExceeded whatever the stacks
hold, and the data stack and the alt stack are unchanged (the run limit is
zeroed). -/
theorem fixed_cost_debited_first (op : StackOp) (vm : virtualMachine)
    (h : vm.runLimit < op.fixedCost) :
    op.fn vm = Outcome.ret (some VMError.ErrRunLimitExceeded) { vm with runLimit := 0 } ∧
    ({ vm with runLimit := 0 } : virtualMachine).dataStack = vm.dataStack ∧
    ({ vm with runLimit := 0 } : virtualMachine).altStack = vm.altStack := by
  refine ⟨?_, rfl, rfl⟩
  cases op <;> simp only [StackOp.fixedCost] at h <;>
    simp only [StackOp.fn, opToAltStack, opFromAltStack, op2Drop, op2Dup, op3Dup, opDup, nDup,
      op2Over, op2Rot, op2Swap, opIfDup, opDepth, opDrop, opNip, opOver, opPick, opRoll, opRot,
      opSwap, opTuck, toInt64_small, applyCost_of_lt _ _ h]

/-- Witness for C7: 3DUP with run limit 2 on an empty data stack. -/
theorem fixed_cost_debited_first_witness :
    StackOp.fn StackOp.DUP3 ⟨2, 0, [], [[5]]⟩ =
      Outcome.ret (some VMError.ErrRunLimitExceeded) ⟨0, 0, [], [[5]]⟩ ∧
    ([] : List (List UInt8)) = [] ∧ ([[5]] : List (List UInt8)) = [[5]] :=
  fixed_cost_debited_first StackOp.DUP3 ⟨2, 0, [], [[5]]⟩ (by decide)

end vm
end Coingod

namespace Coingod
namespace vm

/-! ## C8: what a run-limit failure leaves behind -/

theorem applyCost_cases (vm : virtualMachine) (n : Int) :
    applyCost vm n = (some VMError.ErrRunLimitExceeded, { vm with runLimit := 0 }) ∨
    applyCost vm n = (none, { vm with runLimit := vm.runLimit - n }) := by
  unfold applyCost
  split
  · exact Or.inl rfl
  · exact Or.inr rfl

theorem pushDataStack_cases (vm : virtualMachine) (x : List UInt8) :
    pushDataStack vm x false = (some VMError.ErrRunLimitExceeded, { vm with runLimit := 0 }) ∨
    pushDataStack vm x false =
      (none, { vm with runLimit := vm.runLimit - (8 + (x.length : Int)),
                       dataStack := vm.dataStack ++ [x] }) := by
  by_cases h : 8 + (x.length : Int) ≤ vm.runLimit
  · exact Or.inr (pushDataStack_of_le vm x h)
  · exact Or.inl (pushDataStack_of_lt vm x (by omega))

theorem pop_cases (vm : virtualMachine) :
    (pop vm false = (Except.error VMError.ErrDataStackUnderflow, vm) ∧ vm.dataStack = []) ∨
    ∃ x, vm.dataStack.getLast? = some x ∧
      pop vm false = (Except.ok x,
        { vm with dataStack := vm.dataStack.dropLast,
                  runLimit := toInt64 (vm.runLimit + (8 + (x.length : Int))) }) := by
  unfold pop
  split
  · rename_i h
    exact Or.inl ⟨rfl, List.getLast?_eq_none_iff.mp h⟩
  · rename_i x h
    exact Or.inr ⟨x, h, rfl⟩

/-- A loop whose body pushes one item per round, or fails leaving the stacks
alone: after the loop the alt stack is as before and the data stack is the old
one extended by the items pushed, all `k` of them when the loop ran through and
fewer when a round failed. -/
theorem forRange_push (body : virtualMachine → Outcome)
    (hbody : ∀ vm e vm1, body vm = Outcome.ret e vm1 →
      vm1.altStack = vm.altStack ∧
      ((e = none ∧ ∃ x, vm1.dataStack = vm.dataStack ++ [x]) ∨
       (e ≠ none ∧ vm1.dataStack = vm.dataStack)))
    (k : Nat) (vm : virtualMachine) (e : Option VMError) (vm1 : virtualMachine)
    (h : forRange k body vm = Outcome.ret e vm1) :
    vm1.altStack = vm.altStack ∧
    ∃ pushed, vm1.dataStack = vm.dataStack ++ pushed ∧
      ((e = none ∧ pushed.length = k) ∨ (e ≠ none ∧ pushed.length < k)) := by
  induction k generalizing vm with
  | zero =>
    simp only [forRange, Outcome.ret.injEq] at h
    rw [← h.2]
    exact ⟨rfl, [], by simp, Or.inl ⟨h.1.symm, rfl⟩⟩
  | succ k ih =>
    unfold forRange at h
    split at h
    · rename_i vm2 hb
      have h1 := hbody _ _ _ hb
      have h2 := ih _ h
      rcases h1 with ⟨ha, hd | hd⟩
      · rcases hd with ⟨_, x, hx⟩
        rcases h2 with ⟨ha2, pushed, hp, hlen⟩
        refine ⟨by rw [ha2, ha], x :: pushed, by rw [hp, hx]; simp, ?_⟩
        rcases hlen with hlen | hlen
        · exact Or.inl ⟨hlen.1, by simp [hlen.2]⟩
        · exact Or.inr ⟨hlen.1, by simp; omega⟩
      · exact absurd rfl hd.1
    · rename_i err vm2 hb
      have h1 := hbody _ _ _ hb
      simp only [Outcome.ret.injEq] at h
      rw [← h.2]
      rcases h1 with ⟨ha, hd | hd⟩
      · exact absurd hd.1 (by simp)
      · exact ⟨ha, [], by simp [hd.2], Or.inr ⟨by rw [← h.1]; simp, by simp⟩⟩
    · exact absurd h (by simp)

/-- The loop body of `nDup` and `op2Over` (push the item `n` below the top)
pushes one item or fails leaving the stacks alone. -/
theorem dup_body_push (n : Int) (vm : virtualMachine) (e : Option VMError)
    (vm1 : virtualMachine)
    (h : (match index vm.dataStack ((vm.dataStack.length : Int) - n) with
          | none => Outcome.panic
          | some x =>
            match pushDataStack vm x false with
            | (some err, vm) => Outcome.ret (some err) vm
            | (none, vm) => Outcome.ret none vm) = Outcome.ret e vm1) :
    vm1.altStack = vm.altStack ∧
      ((e = none ∧ ∃ x, vm1.dataStack = vm.dataStack ++ [x]) ∨
       (e ≠ none ∧ vm1.dataStack = vm.dataStack)) := by
  split at h
  · exact absurd h (by simp)
  · rename_i x _
    rcases pushDataStack_cases vm x with hp | hp <;> rw [hp] at h <;>
      simp only [Outcome.ret.injEq] at h <;> rw [← h.2, ← h.1]
    · exact ⟨rfl, Or.inr ⟨by simp, rfl⟩⟩
    · exact ⟨rfl, Or.inl ⟨rfl, x, rfl⟩⟩

end vm
end Coingod

namespace Coingod
namespace vm

theorem pop_err (vm vm1 : virtualMachine) (e : VMError)
    (h : pop vm false = (Except.error e, vm1)) : e = VMError.ErrDataStackUnderflow ∧ vm1 = vm := by
  rcases pop_cases vm with ⟨hp, _⟩ | ⟨x, _, hp⟩ <;> rw [hp] at h <;> simp at h
  exact ⟨h.1.symm, h.2.symm⟩

theorem top_err (vm : virtualMachine) (e : VMError)
    (h : top vm = Except.error e) : e = VMError.ErrDataStackUnderflow := by
  unfold top at h
  split at h <;> simp at h
  exact h.symm

theorem AsBigInt_err (b : List UInt8) (e : VMError) (h : AsBigInt b = Except.error e) :
    e = VMError.ErrBadValue ∨ e = VMError.ErrRange := by
  unfold AsBigInt at h
  split at h
  · simp at h; exact Or.inl h.symm
  · split at h
    · simp at h; exact Or.inr h.symm
    · simp at h

theorem popBigInt_err (vm vm1 : virtualMachine) (e : VMError)
    (h : popBigInt vm false = (Except.error e, vm1)) : e ≠ VMError.ErrRunLimitExceeded := by
  unfold popBigInt at h
  rcases pop_cases vm with ⟨hp, _⟩ | ⟨x, _, hp⟩ <;> rw [hp] at h <;> simp only at h
  · simp at h
    rw [← h.1]; decide
  · simp only [Prod.mk.injEq] at h
    rcases AsBigInt_err _ _ h.1 with h1 | h1 <;> rw [h1] <;> decide

/-- The opcodes that push nothing return the run-limit error only from the
fixed-cost debit, which leaves everything but the run limit alone. -/
theorem no_push_run_limit (op : StackOp) (vm vm1 : virtualMachine)
    (hop : op = StackOp.TOALTSTACK ∨ op = StackOp.FROMALTSTACK ∨ op = StackOp.ROT2 ∨
      op = StackOp.SWAP2 ∨ op = StackOp.ROT ∨ op = StackOp.SWAP)
    (h : op.fn vm = Outcome.ret (some VMError.ErrRunLimitExceeded) vm1) :
    vm1 = { vm with runLimit := 0 } := by
  rcases hop with hop | hop | hop | hop | hop | hop <;> subst hop <;>
    simp only [StackOp.fn, opToAltStack, opFromAltStack, op2Rot, op2Swap, opRot, opSwap, rot] at h
  all_goals
    first
    | (rcases applyCost_cases vm 2 with hac | hac <;> rw [hac] at h <;> simp only at h)
    | (rcases applyCost_cases vm 1 with hac | hac <;> rw [hac] at h <;> simp only at h)
  all_goals
    first
    | (simp only [Outcome.ret.injEq, true_and] at h; exact h.symm)
    | ((repeat' split at h) <;> exact absurd h (by simp))

/-- A loop of pops never ends in the run-limit error. -/
theorem forRange_pop_err (k : Nat) (vm vm1 : virtualMachine) (e : VMError)
    (h : forRange k (fun vm =>
        match pop vm false with
        | (Except.error err, vm) => Outcome.ret (some err) vm
        | (Except.ok _, vm) => Outcome.ret none vm) vm = Outcome.ret (some e) vm1) :
    e = VMError.ErrDataStackUnderflow := by
  induction k generalizing vm with
  | zero => simp [forRange] at h
  | succ k ih =>
    unfold forRange at h
    split at h
    · exact ih _ h
    · rename_i err vm2 hb
      simp only [Outcome.ret.injEq, Option.some.injEq] at h
      simp only at hb
      split at hb
      · rename_i err2 vm3 hpc
        simp only [Outcome.ret.injEq, Option.some.injEq] at hb
        rw [← h.1, ← hb.1]
        exact (pop_err _ _ _ hpc).1
      · exact absurd hb (by simp)
    · exact absurd h (by simp)

/-- The opcodes that only pop return the run-limit error only from the
fixed-cost debit. -/
theorem pop_only_run_limit (op : StackOp) (vm vm1 : virtualMachine)
    (hop : op = StackOp.DROP2 ∨ op = StackOp.DROP ∨ op = StackOp.NIP ∨ op = StackOp.ROLL)
    (h : op.fn vm = Outcome.ret (some VMError.ErrRunLimitExceeded) vm1) :
    vm1 = { vm with runLimit := 0 } := by
  rcases hop with hop | hop | hop | hop <;> subst hop <;>
    simp only [StackOp.fn, op2Drop, opDrop, opNip, opRoll] at h
  · rcases applyCost_cases vm 2 with hac | hac <;> rw [hac] at h <;> simp only at h
    · simp only [Outcome.ret.injEq, true_and] at h; exact h.symm
    · exact absurd (forRange_pop_err _ _ _ _ h) (by decide)
  · rcases applyCost_cases vm 1 with hac | hac <;> rw [hac] at h <;> simp only at h
    · simp only [Outcome.ret.injEq, true_and] at h; exact h.symm
    · rcases hpc : pop { vm with runLimit := vm.runLimit - 1 } false with ⟨r, vm3⟩
      rw [hpc] at h
      cases r with
      | error err =>
        simp only [Outcome.ret.injEq, Option.some.injEq] at h
        have := (pop_err _ _ _ hpc).1
        rw [h.1] at this
        exact absurd this (by decide)
      | ok x => simp at h
  · rcases applyCost_cases vm 1 with hac | hac <;> rw [hac] at h <;> simp only at h
    · simp only [Outcome.ret.injEq, true_and] at h; exact h.symm
    · split at h
      · rename_i err htop
        simp only [Outcome.ret.injEq, Option.some.injEq] at h
        have := top_err _ _ htop
        rw [h.1] at this
        exact absurd this (by decide)
      · split at h
        · exact absurd h (by simp)
        · split at h
          · rename_i err vm3 hpc
            simp only [Outcome.ret.injEq, Option.some.injEq] at h
            have := (pop_err _ _ _ hpc).1
            rw [h.1] at this
            exact absurd this (by decide)
          · exact absurd h (by simp)
  · rcases applyCost_cases vm 2 with hac | hac <;> rw [hac] at h <;> simp only at h
    · simp only [Outcome.ret.injEq, true_and] at h; exact h.symm
    · rcases hpb : popBigInt { vm with runLimit := vm.runLimit - 2 } false with ⟨r, vm3⟩
      rw [hpb] at h
      cases r with
      | error err =>
        simp only [Outcome.ret.injEq, Option.some.injEq] at h
        have := popBigInt_err _ _ _ hpb
        rw [h.1] at this
        exact absurd rfl this
      | ok n =>
        simp only at h
        generalize toInt64 (Uint64 n) = a at h
        rcases AddInt64_one_cases a with hadd | hadd <;> rw [hadd] at h <;> simp only at h
        · exact absurd h (by simp)
        · unfold rot at h
          (repeat' split at h) <;> exact absurd h (by simp)

/-- The opcodes that make one push return the run-limit error from the
fixed-cost debit or from that push; either way both stacks are as before. -/
theorem one_push_run_limit (op : StackOp) (vm vm1 : virtualMachine)
    (hop : op = StackOp.IFDUP ∨ op = StackOp.DEPTH ∨ op = StackOp.OVER)
    (h : op.fn vm = Outcome.ret (some VMError.ErrRunLimitExceeded) vm1) :
    vm1 = { vm with runLimit := 0 } := by
  rcases hop with hop | hop | hop <;> subst hop <;>
    simp only [StackOp.fn, opIfDup, opDepth, opOver, pushBigInt] at h <;>
    rcases applyCost_cases vm 1 with hac | hac <;> rw [hac] at h <;> simp only at h
  · simp only [Outcome.ret.injEq, true_and] at h; exact h.symm
  · split at h
    · rename_i err htop
      simp only [Outcome.ret.injEq, Option.some.injEq] at h
      have := top_err _ _ htop
      rw [h.1] at this
      exact absurd this (by decide)
    · rename_i item _
      split at h
      · rcases pushDataStack_cases { vm with runLimit := vm.runLimit - 1 } item with hp | hp <;>
          rw [hp] at h <;> simp only [Outcome.ret.injEq, true_and] at h
        · exact h.symm
        · exact absurd h.1 (by simp)
      · exact absurd h (by simp)
  · simp only [Outcome.ret.injEq, true_and] at h; exact h.symm
  · rcases pushDataStack_cases { vm with runLimit := vm.runLimit - 1 }
        (BigIntBytes (toUint64 vm.dataStack.length)) with hp | hp <;>
      rw [hp] at h <;> simp only [Outcome.ret.injEq, true_and] at h
    · exact h.symm
    · exact absurd h.1 (by simp)
  · simp only [Outcome.ret.injEq, true_and] at h; exact h.symm
  · split at h
    · exact absurd h (by simp)
    · split at h
      · exact absurd h (by simp)
      · rename_i x _
        rcases pushDataStack_cases { vm with runLimit := vm.runLimit - 1 } x with hp | hp <;>
          rw [hp] at h <;> simp only [Outcome.ret.injEq, true_and] at h
        · exact h.symm
        · exact absurd h.1 (by simp)

/-- After a run-limit failure of `nDup vm n` the alt stack is as before and
the data stack is the old one extended by fewer than `n` pushed items. -/
theorem nDup_run_limit (n : Int) (hn : 1 ≤ n) (vm vm1 : virtualMachine)
    (h : nDup vm n = Outcome.ret (some VMError.ErrRunLimitExceeded) vm1) :
    vm1.altStack = vm.altStack ∧
    ∃ pushed, vm1.dataStack = vm.dataStack ++ pushed ∧ pushed.length < n.toNat := by
  unfold nDup at h
  rcases applyCost_cases vm (toInt64 n) with hac | hac <;> rw [hac] at h <;> simp only at h
  · simp only [Outcome.ret.injEq, true_and] at h
    rw [← h]
    exact ⟨rfl, [], by simp, by simp; omega⟩
  · split at h
    · exact absurd h (by simp)
    · have := forRange_push _ (dup_body_push n) _ _ _ _ h
      rcases this with ⟨ha, pushed, hp, hlen⟩
      refine ⟨ha, pushed, hp, ?_⟩
      rcases hlen with hlen | hlen
      · exact absurd hlen.1 (by simp)
      · exact hlen.2

/-- After a run-limit failure of `op2Over` the alt stack is as before and the
data stack is the old one extended by fewer than 2 pushed items. -/
theorem op2Over_run_limit (vm vm1 : virtualMachine)
    (h : op2Over vm = Outcome.ret (some VMError.ErrRunLimitExceeded) vm1) :
    vm1.altStack = vm.altStack ∧
    ∃ pushed, vm1.dataStack = vm.dataStack ++ pushed ∧ pushed.length < 2 := by
  unfold op2Over at h
  rcases applyCost_cases vm 2 with hac | hac <;> rw [hac] at h <;> simp only at h
  · simp only [Outcome.ret.injEq, true_and] at h
    rw [← h]
    exact ⟨rfl, [], by simp, by simp⟩
  · split at h
    · exact absurd h (by simp)
    · have := forRange_push _ (dup_body_push 4) _ _ _ _ h
      rcases this with ⟨ha, pushed, hp, hlen⟩
      refine ⟨ha, pushed, hp, ?_⟩
      rcases hlen with hlen | hlen
      · exact absurd hlen.1 (by simp)
      · exact hlen.2

/-- After a run-limit failure of `opPick` the alt stack is as before and the
data stack is either as before (the fixed-cost debit failed) or without its
top item (the push failed after the index was popped). -/
theorem opPick_run_limit (vm vm1 : virtualMachine)
    (h : opPick vm = Outcome.ret (some VMError.ErrRunLimitExceeded) vm1) :
    vm1.altStack = vm.altStack ∧
    (vm1.dataStack = vm.dataStack ∨ vm1.dataStack = vm.dataStack.dropLast) := by
  unfold opPick at h
  rcases applyCost_cases vm 2 with hac | hac <;> rw [hac] at h <;> simp only at h
  · simp only [Outcome.ret.injEq, true_and] at h
    rw [← h]
    exact ⟨rfl, Or.inl rfl⟩
  · have hp := popBigInt_dataStack { vm with runLimit := vm.runLimit - 2 } false
    rcases hpb : popBigInt { vm with runLimit := vm.runLimit - 2 } false with ⟨r, vm3⟩
    rw [hpb] at h hp
    simp only at hp
    cases r with
    | error err =>
      simp only [Outcome.ret.injEq, Option.some.injEq] at h
      have := popBigInt_err _ _ _ hpb
      rw [h.1] at this
      exact absurd rfl this
    | ok n =>
      simp only at h
      generalize toInt64 (Uint64 n) = a at h
      rcases AddInt64_one_cases a with hadd | hadd <;> rw [hadd] at h <;> simp only at h
      · exact absurd h (by simp)
      · split at h
        · exact absurd h (by simp)
        · split at h
          · exact absurd h (by simp)
          · rename_i x _
            rcases pushDataStack_cases vm3 x with hpd | hpd <;> rw [hpd] at h <;>
              simp only [Outcome.ret.injEq, true_and] at h
            · rw [← h]
              exact ⟨hp.2, Or.inr hp.1⟩
            · exact absurd h.1 (by simp)

/-- C8 (counterexample): `op2Dup` on the data stack `[[1, 1, 1], [2]]` with run
limit 15 pays the fixed cost 2 and the first push (cost 11), then fails the
second push (cost 9) with ErrRunLimitExceeded; the data stack after the call
is `[[1, 1, 1], [2], [1, 1, 1]]`, not the stack before it. -/
theorem run_limit_failure_keeps_first_push :
    op2Dup ⟨15, 0, [[1, 1, 1], [2]], []⟩ =
      Outcome.ret (some VMError.ErrRunLimitExceeded) ⟨0, 0, [[1, 1, 1], [2], [1, 1, 1]], []⟩ ∧
    ([[1, 1, 1], [2], [1, 1, 1]] : List (List UInt8)) ≠ [[1, 1, 1], [2]] := by
  decide

/-- C8 (amended): if a stack opcode other than TUCK returns
ErrRunLimitExceeded, the alt stack is as before the call, and the data stack
is as before the call, except that 2DUP, 3DUP and 2OVER, which charge each push
on its own, leave it extended by the items already pushed (fewer than 2, 3 and
2 of them), and PICK leaves it either unchanged or, when the push failed after
the index was popped, without that index. -/
theorem run_limit_failure_stacks (op : StackOp) (vm vm1 : virtualMachine)
    (hop : op ≠ StackOp.TUCK)
    (h : op.fn vm = Outcome.ret (some VMError.ErrRunLimitExceeded) vm1) :
    vm1.altStack = vm.altStack ∧
    (op = StackOp.DUP2 ∨ op = StackOp.DUP3 ∨ op = StackOp.OVER2 →
      ∃ pushed, vm1.dataStack = vm.dataStack ++ pushed ∧
        pushed.length < (if op = StackOp.DUP3 then 3 else 2)) ∧
    (op = StackOp.PICK →
      vm1.dataStack = vm.dataStack ∨ vm1.dataStack = vm.dataStack.dropLast) ∧
    (op ≠ StackOp.DUP2 → op ≠ StackOp.DUP3 → op ≠ StackOp.OVER2 → op ≠ StackOp.PICK →
      vm1.dataStack = vm.dataStack) := by
  have key : ∀ v : virtualMachine, v = { vm with runLimit := 0 } →
      v.altStack = vm.altStack ∧ v.dataStack = vm.dataStack := by
    intro v hv; rw [hv]; exact ⟨rfl, rfl⟩
  cases op
  case TUCK => exact absurd rfl hop
  case DUP2 =>
    have := nDup_run_limit 2 (by decide) vm vm1 h
    exact ⟨this.1, fun _ => by simpa using this.2, by simp, by simp⟩
  case DUP3 =>
    have := nDup_run_limit 3 (by decide) vm vm1 h
    exact ⟨this.1, fun _ => by simpa using this.2, by simp, by simp⟩
  case OVER2 =>
    have := op2Over_run_limit vm vm1 h
    exact ⟨this.1, fun _ => by simpa using this.2, by simp, by simp⟩
  case PICK =>
    have := opPick_run_limit vm vm1 h
    exact ⟨this.1, by simp, fun _ => this.2, by simp⟩
  case DUP =>
    have := nDup_run_limit 1 (by decide) vm vm1 h
    rcases this with ⟨ha, pushed, hp, hlen⟩
    have hnil : pushed = [] := List.length_eq_zero.mp (by simpa using hlen)
    subst hnil
    exact ⟨ha, by simp, by simp, fun _ _ _ _ => by simpa using hp⟩
  case TOALTSTACK =>
    have := key _ (no_push_run_limit _ vm vm1 (by simp) h)
    exact ⟨this.1, by simp, by simp, fun _ _ _ _ => this.2⟩
  case FROMALTSTACK =>
    have := key _ (no_push_run_limit _ vm vm1 (by simp) h)
    exact ⟨this.1, by simp, by simp, fun _ _ _ _ => this.2⟩
  case ROT2 =>
    have := key _ (no_push_run_limit _ vm vm1 (by simp) h)
    exact ⟨this.1, by simp, by simp, fun _ _ _ _ => this.2⟩
  case SWAP2 =>
    have := key _ (no_push_run_limit _ vm vm1 (by simp) h)
    exact ⟨this.1, by simp, by simp, fun _ _ _ _ => this.2⟩
  case ROT =>
    have := key _ (no_push_run_limit _ vm vm1 (by simp) h)
    exact ⟨this.1, by simp, by simp, fun _ _ _ _ => this.2⟩
  case SWAP =>
    have := key _ (no_push_run_limit _ vm vm1 (by simp) h)
    exact ⟨this.1, by simp, by simp, fun _ _ _ _ => this.2⟩
  case DROP2 =>
    have := key _ (pop_only_run_limit _ vm vm1 (by simp) h)
    exact ⟨this.1, by simp, by simp, fun _ _ _ _ => this.2⟩
  case DROP =>
    have := key _ (pop_only_run_limit _ vm vm1 (by simp) h)
    exact ⟨this.1, by simp, by simp, fun _ _ _ _ => this.2⟩
  case NIP =>
    have := key _ (pop_only_run_limit _ vm vm1 (by simp) h)
    exact ⟨this.1, by simp, by simp, fun _ _ _ _ => this.2⟩
  case ROLL =>
    have := key _ (pop_only_run_limit _ vm vm1 (by simp) h)
    exact ⟨this.1, by simp, by simp, fun _ _ _ _ => this.2⟩
  case IFDUP =>
    have := key _ (one_push_run_limit _ vm vm1 (by simp) h)
    exact ⟨this.1, by simp, by simp, fun _ _ _ _ => this.2⟩
  case DEPTH =>
    have := key _ (one_push_run_limit _ vm vm1 (by simp) h)
    exact ⟨this.1, by simp, by simp, fun _ _ _ _ => this.2⟩
  case OVER =>
    have := key _ (one_push_run_limit _ vm vm1 (by simp) h)
    exact ⟨this.1, by simp, by simp, fun _ _ _ _ => this.2⟩

/-- Witness for C8 (amended): the failing 2DUP of the counterexample keeps the
alt stack and extends the data stack by one pushed item. -/
theorem run_limit_failure_stacks_witness :
    StackOp.fn StackOp.DUP2 ⟨15, 0, [[1, 1, 1], [2]], [[4]]⟩ =
      Outcome.ret (some VMError.ErrRunLimitExceeded)
        ⟨0, 0, [[1, 1, 1], [2], [1, 1, 1]], [[4]]⟩ ∧
    ∃ pushed, ([[1, 1, 1], [2], [1, 1, 1]] : List (List UInt8)) = [[1, 1, 1], [2]] ++ pushed ∧
      pushed.length < (if StackOp.DUP2 = StackOp.DUP3 then 3 else 2) :=
  ⟨by decide,
   (run_limit_failure_stacks StackOp.DUP2 ⟨15, 0, [[1, 1, 1], [2]], [[4]]⟩
      ⟨0, 0, [[1, 1, 1], [2], [1, 1, 1]], [[4]]⟩ (by decide) (by decide)).2.1 (Or.inl rfl)⟩

end vm
end Coingod

namespace Coingod
namespace api

/-! ## C9: isTemporary against the error table -/

/-- C9 (evaluation at the failing input): the table gives account.ErrReserved
the code "CG702", for which `isTemporary` returns false whatever the error
carries, while the code "CG761" of the case commented "outputs currently
reserved" is the one the table gives to vm.ErrBadValue, for which
`isTemporary` returns true. -/
theorem isTemporary_reserved_false_bad_value_true :
    respErrFormatterAt ErrKey.account_ErrReserved =
      some ⟨400, "CG702", "Available UTXOs of account have been reserved"⟩ ∧
    (∀ actions, isTemporary ⟨400, "CG702", "Available UTXOs of account have been reserved"⟩
      actions = some false) ∧
    respErrFormatterAt ErrKey.vm_ErrBadValue = some ⟨400, "CG761", "Bad value"⟩ ∧
    (∀ actions, isTemporary ⟨400, "CG761", "Bad value"⟩ actions = some true) := by
  refine ⟨by decide, ?_, by decide, ?_⟩
  · intro actions
    unfold isTemporary
    simp
  · intro actions
    unfold isTemporary
    simp

end api

namespace consensus

/-! ## C10: InitActiveNetParams -/

theorem mapIndex_NetParams (chainID : String) :
    mapIndex NetParams chainID =
      if chainID = "mainnet" then (MainNetParams, true)
      else if chainID = "wisdom" then (TestNetParams, true)
      else if chainID = "solonet" then (SoloNetParams, true)
      else (zeroParams, false) := by
  unfold mapIndex NetParams
  by_cases h1 : chainID = "mainnet"
  · subst h1; rfl
  · by_cases h2 : chainID = "wisdom"
    · subst h2; rfl
    · by_cases h3 : chainID = "solonet"
      · subst h3; rfl
      · have e1 : (chainID == "mainnet") = false := by simp [h1]
        have e2 : (chainID == "wisdom") = false := by simp [h2]
        have e3 : (chainID == "solonet") = false := by simp [h3]
        simp [List.lookup, e1, e2, e3, h1, h2, h3]

/-- C10: `InitActiveNetParams chainID` returns nil exactly when `chainID` is
one of the keys "mainnet", "wisdom", "solonet" of `NetParams`; then the new
`ActiveNetParams` is `NetParams[chainID]`, that is the main, test and solo
profile respectively; every other chain ID, among them the empty string and
the profile names "main", "test" and "solo", gets a non-nil error. -/
theorem InitActiveNetParams_nil_iff_key (chainID : String) (old : Params) :
    ((InitActiveNetParams chainID old).2 = none ↔
      chainID = "mainnet" ∨ chainID = "wisdom" ∨ chainID = "solonet") ∧
    ((InitActiveNetParams chainID old).2 = none →
      NetParams.lookup chainID = some (InitActiveNetParams chainID old).1) ∧
    InitActiveNetParams "mainnet" old = (MainNetParams, none) ∧
    InitActiveNetParams "wisdom" old = (TestNetParams, none) ∧
    InitActiveNetParams "solonet" old = (SoloNetParams, none) ∧
    (InitActiveNetParams "" old).2 ≠ none ∧
    (InitActiveNetParams "main" old).2 ≠ none ∧
    (InitActiveNetParams "test" old).2 ≠ none ∧
    (InitActiveNetParams "solo" old).2 ≠ none := by
  refine ⟨?_, ?_, rfl, rfl, rfl, ?_, ?_, ?_, ?_⟩
  rotate_left 2
  · unfold InitActiveNetParams; decide
  · unfold InitActiveNetParams; decide
  · unfold InitActiveNetParams; decide
  · unfold InitActiveNetParams; decide
  · unfold InitActiveNetParams
    rw [mapIndex_NetParams]
    by_cases h1 : chainID = "mainnet"
    · simp [h1]
    · by_cases h2 : chainID = "wisdom"
      · simp [h2]
      · by_cases h3 : chainID = "solonet"
        · simp [h3]
        · simp [h1, h2, h3]
  · unfold InitActiveNetParams
    rw [mapIndex_NetParams]
    by_cases h1 : chainID = "mainnet"
    · subst h1; intro _; rfl
    · by_cases h2 : chainID = "wisdom"
      · subst h2; intro _; rfl
      · by_cases h3 : chainID = "solonet"
        · subst h3; intro _; rfl
        · simp [h1, h2, h3]

end consensus
end Coingod

namespace Coingod
namespace api

/-! ## C11: the error table is injective on codes -/

/-- C11: the keys of `respErrFormatter` are pairwise distinct and so are the
chain codes: two entries with the same code have the same key.  Every vm.*
error is in the table with a code among CG760 .. CG775, and every validation.*
error with a code among CG730 .. CG748. -/
theorem respErrFormatter_codes_injective :
    (respErrFormatter.map (fun p => p.1)).Nodup ∧
    (respErrFormatter.map (fun p => p.2.ChainCode)).Nodup ∧
    (∀ p ∈ respErrFormatter, ∀ q ∈ respErrFormatter,
      p.2.ChainCode = q.2.ChainCode → p.1 = q.1) ∧
    (∀ k : ErrKey, k.isVM = true → ∃ info, respErrFormatterAt k = some info ∧
      info.ChainCode ∈ (List.range 16).map (fun i => "CG" ++ toString (760 + i))) ∧
    (∀ k : ErrKey, k.isValidation = true → ∃ info, respErrFormatterAt k = some info ∧
      info.ChainCode ∈ (List.range 19).map (fun i => "CG" ++ toString (730 + i))) := by
  refine ⟨by decide, by decide, by decide, ?_, ?_⟩
  · intro k hk
    cases k <;> first
      | exact absurd hk (by decide)
      | exact ⟨_, rfl, by decide⟩
  · intro k hk
    cases k <;> first
      | exact absurd hk (by decide)
      | exact ⟨_, rfl, by decide⟩

end api

namespace config

/-! ## C12: the genesis coinbase -/

/-- C12: `GenesisTxs` returns (without panic) exactly two transactions, of
which only the first contains a coinbase input; the first transaction has
exactly one input, a coinbase input whose arbitrary data is at most
`CoinbaseArbitrarySizeLimit` = 128 bytes long (it is 73 bytes), and exactly one
output, of amount `InitCGSupply` in asset `CGAssetID`. -/
theorem genesis_coinbase_shape :
    GenesisTxs.isSome = true ∧
    consensus.CoinbaseArbitrarySizeLimit = 128 ∧
    ∀ txs ∈ GenesisTxs,
      txs.length = 2 ∧
      txs.map (fun tx => tx.TxData.Inputs.any TxInput.isCoinbase) = [true, false] ∧
      ∀ tx ∈ txs.head?,
        tx.TxData.Inputs.length = 1 ∧
        (∀ i ∈ tx.TxData.Inputs, i.isCoinbase = true ∧ i.arbitrary.isSome = true ∧
          ∀ a ∈ i.arbitrary, a.length = 73 ∧
            a.length ≤ consensus.CoinbaseArbitrarySizeLimit) ∧
        tx.TxData.Outputs.length = 1 ∧
        ∀ o ∈ tx.TxData.Outputs,
          o.Amount = consensus.InitCGSupply ∧ some o.AssetId = consensus.CGAssetID := by
  decide

end config
end Coingod

namespace Coingod
namespace vm

/-! ## C17: flat cost of the shape opcodes -/

/-- C17: when SWAP succeeds the run limit has gone down by exactly 1, and when
ROT, 2ROT, 2SWAP, TOALTSTACK or FROMALTSTACK succeeds by exactly 2 (their fixed
cost), whatever the sizes of the items moved: moving an item to or from the
alt stack is neither refunded nor charged. -/
theorem shape_opcodes_flat_cost (op : StackOp) (vm vm1 : virtualMachine)
    (hop : op = StackOp.SWAP ∨ op = StackOp.ROT ∨ op = StackOp.ROT2 ∨ op = StackOp.SWAP2 ∨
      op = StackOp.TOALTSTACK ∨ op = StackOp.FROMALTSTACK)
    (h : op.fn vm = Outcome.ret none vm1) :
    vm1.runLimit = vm.runLimit - (if op = StackOp.SWAP then 1 else 2) ∧
    op.fixedCost = (if op = StackOp.SWAP then 1 else 2) := by
  rcases hop with hop | hop | hop | hop | hop | hop <;> subst hop <;>
    simp only [StackOp.fn, opToAltStack, opFromAltStack, op2Rot, op2Swap, opRot, opSwap, rot] at h
  all_goals
    first
    | (rcases applyCost_cases vm 2 with hac | hac <;> rw [hac] at h <;> simp only at h)
    | (rcases applyCost_cases vm 1 with hac | hac <;> rw [hac] at h <;> simp only at h)
  all_goals
    first
    | (simp at h; done)
    | ((repeat' split at h) <;>
        first
        | (simp at h; done)
        | (simp only [Outcome.ret.injEq, true_and] at h; rw [← h]; exact ⟨by simp, by decide⟩))

/-- Witness for C17: ROT on three items of different sizes costs 2. -/
theorem shape_opcodes_flat_cost_witness :
    StackOp.fn StackOp.ROT ⟨10, 0, [[1, 1, 1], [2], []], []⟩ =
      Outcome.ret none ⟨8, 0, [[2], [], [1, 1, 1]], []⟩ ∧
    (8 : Int) = 10 - (if StackOp.ROT = StackOp.SWAP then 1 else 2) :=
  ⟨by decide,
   (shape_opcodes_flat_cost StackOp.ROT ⟨10, 0, [[1, 1, 1], [2], []], []⟩
      ⟨8, 0, [[2], [], [1, 1, 1]], []⟩ (by decide) (by decide)).1⟩

end vm
end Coingod

namespace Coingod
namespace vm

/-! ## Slices of a stack with a known top part -/

theorem index_suffix {α : Type} (t l : List α) (j : Int) (hj : 1 ≤ j)
    (hjl : j ≤ (l.length : Int)) :
    index (t ++ l) (((t ++ l).length : Int) - j) = l[l.length - j.toNat]? := by
  have hcast : (((t ++ l).length : Int) - j) = ((t.length + (l.length - j.toNat) : Nat) : Int) := by
    simp only [List.length_append, Nat.cast_add]
    omega
  rw [hcast, index_of_nat, List.getElem?_append_right (by omega)]
  congr 1
  omega

theorem sliceTo_suffix {α : Type} (t l : List α) (j : Int) (hj : 0 ≤ j)
    (hjl : j ≤ (l.length : Int)) :
    sliceTo (t ++ l) (((t ++ l).length : Int) - j) = some (t ++ l.take (l.length - j.toNat)) := by
  have hcast : (((t ++ l).length : Int) - j) = ((t.length + (l.length - j.toNat) : Nat) : Int) := by
    simp only [List.length_append, Nat.cast_add]
    omega
  unfold sliceTo
  rw [if_pos (by rw [hcast]; simp only [List.length_append]; omega), hcast, Int.toNat_ofNat,
    List.take_append]

theorem sliceFrom_suffix {α : Type} (t l : List α) (j : Int) (hj : 0 ≤ j)
    (hjl : j ≤ (l.length : Int)) :
    sliceFrom (t ++ l) (((t ++ l).length : Int) - j) = some (l.drop (l.length - j.toNat)) := by
  have hcast : (((t ++ l).length : Int) - j) = ((t.length + (l.length - j.toNat) : Nat) : Int) := by
    simp only [List.length_append, Nat.cast_add]
    omega
  unfold sliceFrom
  rw [if_pos (by rw [hcast]; simp only [List.length_append]; omega), hcast, Int.toNat_ofNat,
    List.drop_append]

/-! ## C19: TUCK -/

/-- C19: on a data stack `t ++ [a, b]` with a run limit that covers the fixed
cost 1 and the push of `b` (cost `8 + len b`), `opTuck` succeeds and leaves
`t ++ [b, a, b]`: `t` is unchanged and the stack is one item longer; the alt
stack is untouched. -/
theorem tuck_copies_top_beneath (t alt : List (List UInt8)) (a b : List UInt8) (L dc : Int)
    (hL : 1 + (8 + (b.length : Int)) ≤ L) :
    opTuck ⟨L, dc, t ++ [a, b], alt⟩ =
      Outcome.ret none ⟨L - 1 - (8 + (b.length : Int)), dc, t ++ [b, a, b], alt⟩ ∧
    (t ++ [b, a, b]).length = (t ++ [a, b]).length + 1 := by
  refine ⟨?_, by simp⟩
  have h1 : (1 : Int) ≤ (⟨L, dc, t ++ [a, b], alt⟩ : virtualMachine).runLimit := by
    simp only; omega
  have hlen : ¬ (((t ++ [a, b]).length : Int) < 2) := by
    simp only [List.length_append, List.length_cons, List.length_nil, Nat.cast_add]; omega
  have hdrop : List.drop ([a, b].length - Int.toNat 2) [a, b] = [a, b] := by simp
  have htake : List.take ([a, b].length - Int.toNat 2) [a, b] = [] := by simp
  have hidx : index [a, b] 1 = some b := by simp [index]
  simp only [opTuck, applyCost_of_le _ _ h1, if_neg hlen,
    sliceFrom_suffix t [a, b] 2 (by decide) (by simp),
    sliceTo_suffix t [a, b] 2 (by decide) (by simp), hdrop, htake, hidx, List.append_nil]
  rw [pushDataStack_of_le _ _ (by simp only; omega)]
  simp only [List.append_assoc, List.singleton_append, Outcome.ret.injEq, true_and]

/-- Witness for C19: TUCK on `[[9], [1, 1], [2]]` with run limit 10. -/
theorem tuck_copies_top_beneath_witness :
    opTuck ⟨10, 0, [[9]] ++ [[1, 1], [2]], []⟩ =
      Outcome.ret none ⟨10 - 1 - (8 + (([2] : List UInt8).length : Int)), 0,
        [[9]] ++ [[2], [1, 1], [2]], []⟩ ∧
    ([[9]] ++ [[2], [1, 1], [2]] : List (List UInt8)).length =
      ([[9]] ++ [[1, 1], [2]] : List (List UInt8)).length + 1 :=
  tuck_copies_top_beneath [[9]] [] [1, 1] [2] 10 0 (by decide)


/-! ## C20: alt-stack round trip -/

theorem opToAltStack_append (s alt : List (List UInt8)) (x : List UInt8) (L dc : Int)
    (hL : 2 ≤ L) :
    opToAltStack ⟨L, dc, s ++ [x], alt⟩ = Outcome.ret none ⟨L - 2, dc, s, alt ++ [x]⟩ := by
  have h1 : (2 : Int) ≤ (⟨L, dc, s ++ [x], alt⟩ : virtualMachine).runLimit := hL
  have hidx : index (s ++ [x]) (((s ++ [x]).length : Int) - 1) = some x := by
    rw [index_suffix s [x] 1 (by decide) (by simp)]; simp
  have hto : sliceTo (s ++ [x]) (((s ++ [x]).length : Int) - 1) = some s := by
    rw [sliceTo_suffix s [x] 1 (by decide) (by simp)]; simp
  simp only [opToAltStack, applyCost_of_le _ _ h1, hidx, hto]
  simp

theorem opFromAltStack_append (s alt : List (List UInt8)) (x : List UInt8) (L dc : Int)
    (hL : 2 ≤ L) :
    opFromAltStack ⟨L, dc, s, alt ++ [x]⟩ = Outcome.ret none ⟨L - 2, dc, s ++ [x], alt⟩ := by
  have h1 : (2 : Int) ≤ (⟨L, dc, s, alt ++ [x]⟩ : virtualMachine).runLimit := hL
  have hidx : index (alt ++ [x]) (((alt ++ [x]).length : Int) - 1) = some x := by
    rw [index_suffix alt [x] 1 (by decide) (by simp)]; simp
  have hto : sliceTo (alt ++ [x]) (((alt ++ [x]).length : Int) - 1) = some alt := by
    rw [sliceTo_suffix alt [x] 1 (by decide) (by simp)]; simp
  simp only [opFromAltStack, applyCost_of_le _ _ h1, hidx, hto]
  simp

/-- C20: with run limit at least 4, on a non-empty data stack `s ++ [x]`
`opToAltStack` succeeds, leaving `s` and the alt stack `alt ++ [x]` (the moved
item on top of the alt stack, the total number of items unchanged), and
`opFromAltStack` after it succeeds and restores both stacks; symmetrically, on
a non-empty alt stack `alt ++ [x]` `opFromAltStack` followed by `opToAltStack`
both succeed and restore both stacks.  Each step costs 2. -/
theorem alt_stack_round_trip (s alt : List (List UInt8)) (x : List UInt8) (L dc : Int)
    (hL : 4 ≤ L) :
    (opToAltStack ⟨L, dc, s ++ [x], alt⟩ = Outcome.ret none ⟨L - 2, dc, s, alt ++ [x]⟩ ∧
     opFromAltStack ⟨L - 2, dc, s, alt ++ [x]⟩ =
       Outcome.ret none ⟨L - 2 - 2, dc, s ++ [x], alt⟩) ∧
    (opFromAltStack ⟨L, dc, s, alt ++ [x]⟩ = Outcome.ret none ⟨L - 2, dc, s ++ [x], alt⟩ ∧
     opToAltStack ⟨L - 2, dc, s ++ [x], alt⟩ =
       Outcome.ret none ⟨L - 2 - 2, dc, s, alt ++ [x]⟩) ∧
    (alt ++ [x]).getLast? = some x ∧
    s.length + (alt ++ [x]).length = (s ++ [x]).length + alt.length := by
  refine ⟨⟨opToAltStack_append s alt x L dc (by omega),
      opFromAltStack_append s alt x (L - 2) dc (by omega)⟩,
    ⟨opFromAltStack_append s alt x L dc (by omega),
      opToAltStack_append s alt x (L - 2) dc (by omega)⟩, by simp, by simp; omega⟩

/-- Witness for C20: one item moved to the alt stack and back with run limit 4. -/
theorem alt_stack_round_trip_witness :
    opToAltStack ⟨4, 0, [[1]] ++ [[2, 2]], [[3]]⟩ =
      Outcome.ret none ⟨4 - 2, 0, [[1]], [[3]] ++ [[2, 2]]⟩ ∧
    opFromAltStack ⟨4 - 2, 0, [[1]], [[3]] ++ [[2, 2]]⟩ =
      Outcome.ret none ⟨4 - 2 - 2, 0, [[1]] ++ [[2, 2]], [[3]]⟩ :=
  (alt_stack_round_trip [[1]] [[3]] [2, 2] 4 0 (by decide)).1

/-! ## C16: IFDUP -/

/-- C16: on a non-empty data stack `s ++ [x]`: if `x` has a non-zero byte and
the run limit covers the fixed cost 1 and the push of `x`, `opIfDup` succeeds
and leaves `s ++ [x, x]`; if every byte of `x` is zero (`x` empty included) and
the run limit covers the fixed cost 1, `opIfDup` succeeds and leaves
`s ++ [x]`.  The alt stack is untouched. -/
theorem ifdup_every_byte_zero_rule (s alt : List (List UInt8)) (x : List UInt8) (L dc : Int)
    (hL : 1 ≤ L) :
    ((∃ b ∈ x, b ≠ 0) → 1 + (8 + (x.length : Int)) ≤ L →
      opIfDup ⟨L, dc, s ++ [x], alt⟩ =
        Outcome.ret none ⟨L - 1 - (8 + (x.length : Int)), dc, s ++ [x, x], alt⟩) ∧
    ((∀ b ∈ x, b = 0) →
      opIfDup ⟨L, dc, s ++ [x], alt⟩ = Outcome.ret none ⟨L - 1, dc, s ++ [x], alt⟩) := by
  have h1 : (1 : Int) ≤ (⟨L, dc, s ++ [x], alt⟩ : virtualMachine).runLimit := hL
  have htop : top ⟨L - 1, dc, s ++ [x], alt⟩ = Except.ok x := by simp [top]
  constructor
  · intro hx hpush
    have hb : AsBool x = true := by
      rcases hx with ⟨b, hb, hne⟩
      simp only [AsBool, List.any_eq_true]
      exact ⟨b, hb, by simpa using hne⟩
    simp only [opIfDup, applyCost_of_le _ _ h1, htop, hb, if_true]
    rw [pushDataStack_of_le _ _ (by simp only; omega)]
    simp
  · intro hx
    have hb : AsBool x = false := by
      simp only [AsBool, List.any_eq_false]
      intro b hb
      simp [hx b hb]
    simp only [opIfDup, applyCost_of_le _ _ h1, htop, hb]
    simp

/-- Witness for C16: IFDUP on a top item with a non-zero byte, and on an
all-zero top item. -/
theorem ifdup_every_byte_zero_rule_witness :
    opIfDup ⟨20, 0, [[7]] ++ [[0, 1]], []⟩ =
      Outcome.ret none ⟨20 - 1 - (8 + (([0, 1] : List UInt8).length : Int)), 0,
        [[7]] ++ [[0, 1], [0, 1]], []⟩ ∧
    opIfDup ⟨20, 0, [[7]] ++ [[0, 0]], []⟩ =
      Outcome.ret none ⟨20 - 1, 0, [[7]] ++ [[0, 0]], []⟩ :=
  ⟨(ifdup_every_byte_zero_rule [[7]] [] [0, 1] 20 0 (by decide)).1 ⟨1, by decide, by decide⟩
      (by decide),
   (ifdup_every_byte_zero_rule [[7]] [] [0, 0] 20 0 (by decide)).2 (by decide)⟩

end vm
end Coingod

namespace Coingod
namespace vm

/-! ## C14: the rotate primitive -/

theorem sliceTo_of_nat {α : Type} (s : List α) (k : Nat) (h : k ≤ s.length) :
    sliceTo s (k : Int) = some (s.take k) := by
  unfold sliceTo
  rw [if_pos ⟨by omega, by omega⟩, Int.toNat_ofNat]

theorem sliceFrom_of_nat {α : Type} (s : List α) (k : Nat) (h : k ≤ s.length) :
    sliceFrom s (k : Int) = some (s.drop k) := by
  unfold sliceFrom
  rw [if_pos ⟨by omega, by omega⟩, Int.toNat_ofNat]

/-- The successful path of `rot`: the item `n`-th from the top moves on top. -/
theorem rot_of_le (vm : virtualMachine) (n : Int) (x : List UInt8) (h1 : 1 ≤ n)
    (h2 : n ≤ (vm.dataStack.length : Int)) (hd : vm.dataStack.length < 2 ^ 63)
    (hx : vm.dataStack[vm.dataStack.length - n.toNat]? = some x) :
    rot vm n = Outcome.ret none
      { vm with dataStack :=
          vm.dataStack.take (vm.dataStack.length - n.toNat) ++
            vm.dataStack.drop (vm.dataStack.length - n.toNat + 1) ++ [x] } := by
  have h63n : (2 : Nat) ^ 63 = 9223372036854775808 := by norm_num
  have h63 : (2 : Int) ^ 63 = 9223372036854775808 := by norm_num
  have hk : toInt64 ((vm.dataStack.length : Int) - n) =
      ((vm.dataStack.length - n.toNat : Nat) : Int) := by
    rw [toInt64_of_fits _ (by omega) (by omega)]
    omega
  have hk1 : ((vm.dataStack.length - n.toNat : Nat) : Int) + 1 =
      ((vm.dataStack.length - n.toNat + 1 : Nat) : Int) := by
    push_cast; rfl
  unfold rot
  rw [if_neg (by omega), if_neg (by omega)]
  simp only [hk, hk1, sliceTo_of_nat _ _ (Nat.sub_le _ _),
    sliceFrom_of_nat vm.dataStack (vm.dataStack.length - n.toNat + 1) (by omega),
    index_of_nat, hx, List.nil_append]

/-- The int64 reading of `k + 1` against the checked increment of the int64
reading of the low 64 bits of `k`: either the increment overflows and `k + 1`
reads as a value below 1, or the two agree. -/
theorem toInt64_succ_cases (k : Nat) :
    (toInt64 ((Uint64 k : Nat) : Int) = 9223372036854775807 ∧ toInt64 ((k : Int) + 1) < 1) ∨
    (toInt64 ((Uint64 k : Nat) : Int) < 9223372036854775807 ∧
      toInt64 ((k : Int) + 1) = toInt64 ((Uint64 k : Nat) : Int) + 1) := by
  unfold toInt64 Uint64
  push_cast
  split_ifs <;> omega

/-- `opRoll` on `s ++ [encoding of k]` is `rot` on the machine left by the
fixed-cost debit and the pop of the index, with `n` the int64 reading of
`k + 1`. -/
theorem opRoll_eq_rot (k : Nat) (L dc : Int) (s alt : List (List UInt8)) (hL : 2 ≤ L)
    (hk : k < 2 ^ 255) :
    opRoll ⟨L, dc, s ++ [BigIntBytes k], alt⟩ =
      rot ⟨toInt64 (L - 2 + (8 + ((BigIntBytes k).length : Int))), dc, s, alt⟩
        (toInt64 ((k : Int) + 1)) := by
  have hdec : AsBigInt (BigIntBytes k) = Except.ok k := AsBigInt_BigIntBytes k hk
  rcases toInt64_succ_cases k with ⟨h1, h2⟩ | ⟨h1, h2⟩
  · simp only [opRoll, applyCost_of_le ⟨L, dc, s ++ [BigIntBytes k], alt⟩ 2 hL, popBigInt_append,
      hdec, h1, AddInt64_one_of_max]
    unfold rot
    rw [if_pos h2]
  · have hadd := AddInt64_one_of_lt _ h1
    simp only [opRoll, applyCost_of_le ⟨L, dc, s ++ [BigIntBytes k], alt⟩ 2 hL, popBigInt_append,
      hdec, hadd]
    rw [h2]

/-- C14: `rot vm n` on a data stack `s` of depth `d` (a Go slice, shorter than
2^63): for `1 ≤ n ≤ d` it succeeds and leaves
`s[0..d-n) ++ s[d-n+1..d) ++ [s[d-n]]`, which is `s` with the item at index
`d - n` erased (the other items keep their order) and put on top, a
permutation of `s` of the same length, and `s` itself when `n = 1`; for
`n < 1` it returns ErrBadValue and for `n > d` ErrDataStackUnderflow, the
machine unchanged.  `opRoll` on `s ++ [encoding of k]` is `rot` on the machine
left by the fixed-cost debit and the pop of the index, with `n` the int64
reading of `k + 1`, which is `k + 1` itself whenever `k + 1` fits an int64. -/
theorem rot_single_element_rotate (vm : virtualMachine) (n : Int) :
    (vm.dataStack.length < 2 ^ 63 → 1 ≤ n → n ≤ (vm.dataStack.length : Int) →
      ∃ x, vm.dataStack[vm.dataStack.length - n.toNat]? = some x ∧
        rot vm n = Outcome.ret none
          { vm with dataStack :=
              vm.dataStack.take (vm.dataStack.length - n.toNat) ++
                vm.dataStack.drop (vm.dataStack.length - n.toNat + 1) ++ [x] } ∧
        vm.dataStack.take (vm.dataStack.length - n.toNat) ++
            vm.dataStack.drop (vm.dataStack.length - n.toNat + 1) =
          vm.dataStack.eraseIdx (vm.dataStack.length - n.toNat) ∧
        (vm.dataStack.eraseIdx (vm.dataStack.length - n.toNat) ++ [x]).Perm vm.dataStack ∧
        (vm.dataStack.eraseIdx (vm.dataStack.length - n.toNat) ++ [x]).length =
          vm.dataStack.length ∧
        (n = 1 → vm.dataStack.eraseIdx (vm.dataStack.length - n.toNat) ++ [x] = vm.dataStack)) ∧
    (n < 1 → rot vm n = Outcome.ret (some VMError.ErrBadValue) vm) ∧
    ((vm.dataStack.length : Int) < n →
      rot vm n = Outcome.ret (some VMError.ErrDataStackUnderflow) vm) ∧
    (∀ (k : Nat) (L dc : Int) (s alt : List (List UInt8)), 2 ≤ L → k < 2 ^ 255 →
      opRoll ⟨L, dc, s ++ [BigIntBytes k], alt⟩ =
          rot ⟨toInt64 (L - 2 + (8 + ((BigIntBytes k).length : Int))), dc, s, alt⟩
            (toInt64 ((k : Int) + 1)) ∧
        (k + 1 < 2 ^ 63 → toInt64 ((k : Int) + 1) = (k : Int) + 1)) := by
  refine ⟨?_, ?_, ?_, ?_⟩
  · intro hd h1 h2
    have hlt : vm.dataStack.length - n.toNat < vm.dataStack.length := by omega
    refine ⟨vm.dataStack[vm.dataStack.length - n.toNat], List.getElem?_eq_getElem hlt, ?_, ?_,
      ?_, ?_, ?_⟩
    · exact rot_of_le vm n _ h1 h2 hd (List.getElem?_eq_getElem hlt)
    · exact (List.eraseIdx_eq_take_drop_succ _ _).symm
    · rw [List.eraseIdx_eq_take_drop_succ]
      have hs : vm.dataStack = vm.dataStack.take (vm.dataStack.length - n.toNat) ++
          vm.dataStack[vm.dataStack.length - n.toNat] ::
            vm.dataStack.drop (vm.dataStack.length - n.toNat + 1) := by
        rw [← List.drop_eq_getElem_cons hlt, List.take_append_drop]
      conv_rhs => rw [hs]
      rw [List.append_assoc]
      exact (List.perm_append_left_iff _).mpr (List.perm_append_singleton _ _)
    · rw [List.length_append, List.length_eraseIdx_of_lt hlt]
      simp only [List.length_singleton]
      omega
    · intro hn
      subst hn
      rw [List.eraseIdx_eq_take_drop_succ]
      have h0 : vm.dataStack.length - (1 : Int).toNat + 1 = vm.dataStack.length := by
        simp only [Int.toNat_one]; omega
      have hs := List.take_append_drop (vm.dataStack.length - (1 : Int).toNat) vm.dataStack
      rw [List.drop_eq_getElem_cons hlt] at hs
      rw [h0, List.drop_length, List.append_nil]
      rw [h0, List.drop_length] at hs
      exact hs
  · intro h
    unfold rot
    rw [if_pos h]
  · intro h
    unfold rot
    rw [if_neg (by omega), if_pos h]
  · intro k L dc s alt hL hk
    have h63n : (2 : Nat) ^ 63 = 9223372036854775808 := by norm_num
    exact ⟨opRoll_eq_rot k L dc s alt hL hk,
      fun h => toInt64_of_fits _ (by omega) (by omega)⟩

/-- Witness for C14: `rot` with `n = 3` on `[[1], [2], [3], [4]]` moves `[2]`
on top. -/
theorem rot_single_element_rotate_witness :
    ∃ x, ([[1], [2], [3], [4]] : List (List UInt8))[4 - (3 : Int).toNat]? = some x ∧
      rot ⟨5, 0, [[1], [2], [3], [4]], []⟩ 3 = Outcome.ret none
        ⟨5, 0, List.take (4 - (3 : Int).toNat) [[1], [2], [3], [4]] ++
          List.drop (4 - (3 : Int).toNat + 1) [[1], [2], [3], [4]] ++ [x], []⟩ :=
  match (rot_single_element_rotate ⟨5, 0, [[1], [2], [3], [4]], []⟩ 3).1
      (by decide) (by decide) (by decide) with
  | ⟨x, hx, hr, _⟩ => ⟨x, hx, hr⟩

end vm
end Coingod

namespace Coingod
namespace vm

/-! ## C15: the hand-spliced opcodes against `rot` -/

/-- The rotate primitive on a stack with a known top part: with `n` one more
than the length of `l`, the item `x` below `l` moves on top. -/
theorem rot_suffix (t alt : List (List UInt8)) (x : List UInt8) (l : List (List UInt8))
    (n L dc : Int) (hn : n = (l.length : Int) + 1) (hd : (t ++ x :: l).length < 2 ^ 63) :
    rot ⟨L, dc, t ++ x :: l, alt⟩ n = Outcome.ret none ⟨L, dc, t ++ (l ++ [x]), alt⟩ := by
  subst hn
  have hk : (t ++ x :: l).length - ((l.length : Int) + 1).toNat = t.length := by
    simp only [List.length_append, List.length_cons]
    omega
  have hx : (t ++ x :: l)[(t ++ x :: l).length - ((l.length : Int) + 1).toNat]? = some x := by
    rw [hk, List.getElem?_append_right (Nat.le_refl _)]; simp
  rw [rot_of_le ⟨L, dc, t ++ x :: l, alt⟩ _ x (by omega)
    (by simp only [List.length_append, List.length_cons]; omega) hd hx]
  simp only [hk]
  simp

theorem swap_suffix (t : List (List UInt8)) (a b : List UInt8) :
    ((t ++ [a, b]).set ((t ++ [a, b]).length - 1) a).set ((t ++ [a, b]).length - 2) b =
      t ++ [b, a] := by
  have h1 : (t ++ [a, b]).length - 1 = t.length + 1 := by simp
  have h2 : (t ++ [a, b]).length - 2 = t.length := by simp
  rw [h1, h2]
  induction t with
  | nil => rfl
  | cons y t ih => simp [ih]

/-- C15: on a stack with enough items (the whole stack a Go slice, shorter than
2^63) and a run limit that covers the fixed cost, the hand-spliced opcodes
leave the data stack that the rotate primitive gives: `opSwap` that of
`rot 2` (`[.., a, b]` becomes `[.., b, a]`), `opRot` that of `rot 3`,
`op2Swap` that of `rot 4` applied twice (`[.., a, b, c, d]` becomes
`[.., c, d, a, b]`) and `op2Rot` that of `rot 6` applied twice
(`[.., a, b, c, d, e, f]` becomes `[.., c, d, e, f, a, b]`); the items `t`
below the window are untouched, and so is the alt stack. -/
theorem spliced_opcodes_agree_with_rot (t alt : List (List UInt8))
    (a b c d e f : List UInt8) (L R dc : Int) (hL : 2 ≤ L) (hd : t.length + 6 < 2 ^ 63) :
    (opSwap ⟨L, dc, t ++ [a, b], alt⟩ = Outcome.ret none ⟨L - 1, dc, t ++ [b, a], alt⟩ ∧
     rot ⟨R, dc, t ++ [a, b], alt⟩ 2 = Outcome.ret none ⟨R, dc, t ++ [b, a], alt⟩) ∧
    (opRot ⟨L, dc, t ++ [a, b, c], alt⟩ = Outcome.ret none ⟨L - 2, dc, t ++ [b, c, a], alt⟩ ∧
     rot ⟨R, dc, t ++ [a, b, c], alt⟩ 3 = Outcome.ret none ⟨R, dc, t ++ [b, c, a], alt⟩) ∧
    (op2Swap ⟨L, dc, t ++ [a, b, c, d], alt⟩ =
       Outcome.ret none ⟨L - 2, dc, t ++ [c, d, a, b], alt⟩ ∧
     rot ⟨R, dc, t ++ [a, b, c, d], alt⟩ 4 = Outcome.ret none ⟨R, dc, t ++ [b, c, d, a], alt⟩ ∧
     rot ⟨R, dc, t ++ [b, c, d, a], alt⟩ 4 = Outcome.ret none ⟨R, dc, t ++ [c, d, a, b], alt⟩) ∧
    (op2Rot ⟨L, dc, t ++ [a, b, c, d, e, f], alt⟩ =
       Outcome.ret none ⟨L - 2, dc, t ++ [c, d, e, f, a, b], alt⟩ ∧
     rot ⟨R, dc, t ++ [a, b, c, d, e, f], alt⟩ 6 =
       Outcome.ret none ⟨R, dc, t ++ [b, c, d, e, f, a], alt⟩ ∧
     rot ⟨R, dc, t ++ [b, c, d, e, f, a], alt⟩ 6 =
       Outcome.ret none ⟨R, dc, t ++ [c, d, e, f, a, b], alt⟩) := by
  have hr2 : ∀ (x y : List UInt8), rot ⟨R, dc, t ++ [x, y], alt⟩ 2 =
      Outcome.ret none ⟨R, dc, t ++ [y, x], alt⟩ := fun x y =>
    rot_suffix t alt x [y] 2 R dc (by simp) (by simp; omega)
  have hr3 : ∀ (L' : Int) (x y z : List UInt8), rot ⟨L', dc, t ++ [x, y, z], alt⟩ 3 =
      Outcome.ret none ⟨L', dc, t ++ [y, z, x], alt⟩ := fun L' x y z =>
    rot_suffix t alt x [y, z] 3 L' dc (by simp) (by simp; omega)
  have hr4 : ∀ (x y z w : List UInt8), rot ⟨R, dc, t ++ [x, y, z, w], alt⟩ 4 =
      Outcome.ret none ⟨R, dc, t ++ [y, z, w, x], alt⟩ := fun x y z w =>
    rot_suffix t alt x [y, z, w] 4 R dc (by simp) (by simp; omega)
  have hr6 : ∀ (x y z w u v : List UInt8), rot ⟨R, dc, t ++ [x, y, z, w, u, v], alt⟩ 6 =
      Outcome.ret none ⟨R, dc, t ++ [y, z, w, u, v, x], alt⟩ := fun x y z w u v =>
    rot_suffix t alt x [y, z, w, u, v] 6 R dc (by simp) (by simp; omega)
  refine ⟨⟨?_, hr2 a b⟩, ⟨?_, hr3 R a b c⟩, ⟨?_, hr4 a b c d, hr4 b c d a⟩,
    ⟨?_, hr6 a b c d e f, hr6 b c d e f a⟩⟩
  · have h1 : (1 : Int) ≤ (⟨L, dc, t ++ [a, b], alt⟩ : virtualMachine).runLimit := by
      simp only; omega
    have hlen : ¬ (((t ++ [a, b]).length : Int) < 2) := by
      simp only [List.length_append, List.length_cons, List.length_nil, Nat.cast_add]; omega
    have hi2 : index (t ++ [a, b]) (((t ++ [a, b]).length : Int) - 2) = some a := by
      rw [index_suffix t [a, b] 2 (by decide) (by simp)]; simp
    have hi1 : index (t ++ [a, b]) (((t ++ [a, b]).length : Int) - 1) = some b := by
      rw [index_suffix t [a, b] 1 (by decide) (by simp)]; simp
    simp only [opSwap, applyCost_of_le _ _ h1, if_neg hlen, hi2, hi1, swap_suffix]
  · have h2 : (2 : Int) ≤ (⟨L, dc, t ++ [a, b, c], alt⟩ : virtualMachine).runLimit := hL
    simp only [opRot, applyCost_of_le _ _ h2]
    exact hr3 (L - 2) a b c
  · have h2 : (2 : Int) ≤ (⟨L, dc, t ++ [a, b, c, d], alt⟩ : virtualMachine).runLimit := hL
    have hlen : ¬ (((t ++ [a, b, c, d]).length : Int) < 4) := by
      simp only [List.length_append, List.length_cons, List.length_nil, Nat.cast_add]; omega
    have hto : sliceTo (t ++ [a, b, c, d]) (((t ++ [a, b, c, d]).length : Int) - 4) = some t := by
      rw [sliceTo_suffix t [a, b, c, d] 4 (by decide) (by simp)]; simp
    have hfrom : sliceFrom (t ++ [a, b, c, d]) (((t ++ [a, b, c, d]).length : Int) - 2) =
        some [c, d] := by
      rw [sliceFrom_suffix t [a, b, c, d] 2 (by decide) (by simp)]; simp
    have hi4 : index (t ++ [a, b, c, d]) (((t ++ [a, b, c, d]).length : Int) - 4) = some a := by
      rw [index_suffix t [a, b, c, d] 4 (by decide) (by simp)]; simp
    have hi3 : index (t ++ [a, b, c, d]) (((t ++ [a, b, c, d]).length : Int) - 3) = some b := by
      rw [index_suffix t [a, b, c, d] 3 (by decide) (by simp)]; simp
    simp only [op2Swap, applyCost_of_le _ _ h2, if_neg hlen, hto, hfrom, hi4, hi3]
    simp
  · have h2 : (2 : Int) ≤ (⟨L, dc, t ++ [a, b, c, d, e, f], alt⟩ : virtualMachine).runLimit := hL
    have hlen : ¬ (((t ++ [a, b, c, d, e, f]).length : Int) < 6) := by
      simp only [List.length_append, List.length_cons, List.length_nil, Nat.cast_add]; omega
    have hto : sliceTo (t ++ [a, b, c, d, e, f])
        (((t ++ [a, b, c, d, e, f]).length : Int) - 6) = some t := by
      rw [sliceTo_suffix t [a, b, c, d, e, f] 6 (by decide) (by simp)]; simp
    have hfrom : sliceFrom (t ++ [a, b, c, d, e, f])
        (((t ++ [a, b, c, d, e, f]).length : Int) - 4) = some [c, d, e, f] := by
      rw [sliceFrom_suffix t [a, b, c, d, e, f] 4 (by decide) (by simp)]; simp
    have hi6 : index (t ++ [a, b, c, d, e, f])
        (((t ++ [a, b, c, d, e, f]).length : Int) - 6) = some a := by
      rw [index_suffix t [a, b, c, d, e, f] 6 (by decide) (by simp)]; simp
    have hi5 : index (t ++ [a, b, c, d, e, f])
        (((t ++ [a, b, c, d, e, f]).length : Int) - 5) = some b := by
      rw [index_suffix t [a, b, c, d, e, f] 5 (by decide) (by simp)]; simp
    simp only [op2Rot, applyCost_of_le _ _ h2, if_neg hlen, hto, hfrom, hi6, hi5]
    simp

/-- Witness for C15: 2SWAP against `rot 4` twice on `[[0], [1], [2], [3], [4]]`. -/
theorem spliced_opcodes_agree_with_rot_witness :
    op2Swap ⟨9, 0, [[0]] ++ [[1], [2], [3], [4]], []⟩ =
      Outcome.ret none ⟨9 - 2, 0, [[0]] ++ [[3], [4], [1], [2]], []⟩ ∧
    rot ⟨7, 0, [[0]] ++ [[1], [2], [3], [4]], []⟩ 4 =
      Outcome.ret none ⟨7, 0, [[0]] ++ [[2], [3], [4], [1]], []⟩ ∧
    rot ⟨7, 0, [[0]] ++ [[2], [3], [4], [1]], []⟩ 4 =
      Outcome.ret none ⟨7, 0, [[0]] ++ [[3], [4], [1], [2]], []⟩ :=
  (spliced_opcodes_agree_with_rot [[0]] [] [1] [2] [3] [4] [5] [6] 9 7 0
    (by decide) (by decide)).2.2.1

end vm
end Coingod

namespace Coingod
namespace vm

/-! ## C18: DUP, 2DUP, 3DUP -/

theorem forRange_one (body : virtualMachine → Outcome) (v0 v1 : virtualMachine)
    (h0 : body v0 = Outcome.ret none v1) : forRange 1 body v0 = Outcome.ret none v1 := by
  simp only [forRange, h0]

theorem forRange_two (body : virtualMachine → Outcome) (v0 v1 v2 : virtualMachine)
    (h0 : body v0 = Outcome.ret none v1) (h1 : body v1 = Outcome.ret none v2) :
    forRange 2 body v0 = Outcome.ret none v2 := by
  simp only [forRange, h0, h1]

theorem forRange_three (body : virtualMachine → Outcome) (v0 v1 v2 v3 : virtualMachine)
    (h0 : body v0 = Outcome.ret none v1) (h1 : body v1 = Outcome.ret none v2)
    (h2 : body v2 = Outcome.ret none v3) :
    forRange 3 body v0 = Outcome.ret none v3 := by
  simp only [forRange, h0, h1, h2]

/-- One round of the loop of `nDup` (and of `op2Over`) on a stack whose top
part `l` is known: the item `n` below the end of `l` is pushed. -/
theorem dup_body_step (n : Int) (t l alt : List (List UInt8)) (y : List UInt8) (L dc : Int)
    (hn1 : 1 ≤ n) (hn : n ≤ (l.length : Int)) (hy : l[l.length - n.toNat]? = some y)
    (hL : 8 + (y.length : Int) ≤ L) :
    (fun vm : virtualMachine =>
      match index vm.dataStack ((vm.dataStack.length : Int) - n) with
      | none => Outcome.panic
      | some x =>
        match pushDataStack vm x false with
        | (some err, vm) => Outcome.ret (some err) vm
        | (none, vm) => Outcome.ret none vm) ⟨L, dc, t ++ l, alt⟩ =
      Outcome.ret none ⟨L - (8 + (y.length : Int)), dc, t ++ (l ++ [y]), alt⟩ := by
  simp only [index_suffix t l n hn1 hn, hy]
  rw [pushDataStack_of_le _ _ (by simp only; omega)]
  simp

/-- C18: `nDup` duplicates the top `n` items in order.  On a data stack `s`
that ends with the `n` items shown (`n` = 1 for `opDup`, 2 for `op2Dup`, 3 for
`op3Dup`; these are `s[d-n..d)`) and with a run limit that covers the fixed
cost `n` and the `n` pushes (`8 + len item` each), the call succeeds and
leaves `s ++ s[d-n..d)`: the first `d` items are unchanged and the length is
`d + n`.  The alt stack is untouched. -/
theorem ndup_duplicates_top_items (t alt : List (List UInt8)) (a b c : List UInt8)
    (L dc : Int) :
    (1 + (8 + (a.length : Int)) ≤ L →
      opDup ⟨L, dc, t ++ [a], alt⟩ =
        Outcome.ret none ⟨L - 1 - (8 + (a.length : Int)), dc, (t ++ [a]) ++ [a], alt⟩) ∧
    (2 + (8 + (a.length : Int)) + (8 + (b.length : Int)) ≤ L →
      op2Dup ⟨L, dc, t ++ [a, b], alt⟩ =
        Outcome.ret none ⟨L - 2 - (8 + (a.length : Int)) - (8 + (b.length : Int)), dc,
          (t ++ [a, b]) ++ [a, b], alt⟩) ∧
    (3 + (8 + (a.length : Int)) + (8 + (b.length : Int)) + (8 + (c.length : Int)) ≤ L →
      op3Dup ⟨L, dc, t ++ [a, b, c], alt⟩ =
        Outcome.ret none
          ⟨L - 3 - (8 + (a.length : Int)) - (8 + (b.length : Int)) - (8 + (c.length : Int)), dc,
            (t ++ [a, b, c]) ++ [a, b, c], alt⟩) ∧
    ((t ++ [a]).drop ((t ++ [a]).length - 1) = [a] ∧
     (t ++ [a, b]).drop ((t ++ [a, b]).length - 2) = [a, b] ∧
     (t ++ [a, b, c]).drop ((t ++ [a, b, c]).length - 3) = [a, b, c]) ∧
    (((t ++ [a]) ++ [a]).length = (t ++ [a]).length + 1 ∧
     ((t ++ [a, b]) ++ [a, b]).length = (t ++ [a, b]).length + 2 ∧
     ((t ++ [a, b, c]) ++ [a, b, c]).length = (t ++ [a, b, c]).length + 3) := by
  refine ⟨?_, ?_, ?_, ⟨by simp, by simp, by simp⟩, ⟨by simp, by simp, by simp⟩⟩
  · intro hL
    have h1 : (1 : Int) ≤ (⟨L, dc, t ++ [a], alt⟩ : virtualMachine).runLimit := by
      simp only; omega
    have hlen : ¬ (((t ++ [a]).length : Int) < 1) := by
      simp only [List.length_append, List.length_cons, List.length_nil, Nat.cast_add]; omega
    simp only [opDup, nDup, toInt64_small, applyCost_of_le _ _ h1, if_neg hlen]
    have hs : (t ++ [a]) ++ [a] = t ++ ([a] ++ [a]) := by simp
    rw [hs]
    exact forRange_one _ _ _
      (dup_body_step 1 t [a] alt a (L - 1) dc (by decide) (by simp) (by simp) (by omega))
  · intro hL
    have h1 : (2 : Int) ≤ (⟨L, dc, t ++ [a, b], alt⟩ : virtualMachine).runLimit := by
      simp only; omega
    have hlen : ¬ (((t ++ [a, b]).length : Int) < 2) := by
      simp only [List.length_append, List.length_cons, List.length_nil, Nat.cast_add]; omega
    simp only [op2Dup, nDup, toInt64_small, applyCost_of_le _ _ h1, if_neg hlen]
    have hs : (t ++ [a, b]) ++ [a, b] = t ++ (([a, b] ++ [a]) ++ [b]) := by simp
    rw [hs]
    exact forRange_two _ _ _ _
      (dup_body_step 2 t [a, b] alt a (L - 2) dc (by decide) (by simp) (by simp) (by omega))
      (dup_body_step 2 t ([a, b] ++ [a]) alt b (L - 2 - (8 + (a.length : Int))) dc (by decide)
        (by simp) (by simp) (by omega))
  · intro hL
    have h1 : (3 : Int) ≤ (⟨L, dc, t ++ [a, b, c], alt⟩ : virtualMachine).runLimit := by
      simp only; omega
    have hlen : ¬ (((t ++ [a, b, c]).length : Int) < 3) := by
      simp only [List.length_append, List.length_cons, List.length_nil, Nat.cast_add]; omega
    simp only [op3Dup, nDup, toInt64_small, applyCost_of_le _ _ h1, if_neg hlen]
    have hs : (t ++ [a, b, c]) ++ [a, b, c] = t ++ ((([a, b, c] ++ [a]) ++ [b]) ++ [c]) := by
      simp
    rw [hs]
    exact forRange_three _ _ _ _ _
      (dup_body_step 3 t [a, b, c] alt a (L - 3) dc (by decide) (by simp) (by simp) (by omega))
      (dup_body_step 3 t ([a, b, c] ++ [a]) alt b (L - 3 - (8 + (a.length : Int))) dc
        (by decide) (by simp) (by simp) (by omega))
      (dup_body_step 3 t (([a, b, c] ++ [a]) ++ [b]) alt c
        (L - 3 - (8 + (a.length : Int)) - (8 + (b.length : Int))) dc (by decide)
        (by simp) (by simp) (by omega))

/-- Witness for C18: 2DUP on `[[9], [1, 1], [2]]` with run limit 21. -/
theorem ndup_duplicates_top_items_witness :
    op2Dup ⟨21, 0, [[9]] ++ [[1, 1], [2]], []⟩ =
      Outcome.ret none
        ⟨21 - 2 - (8 + (([1, 1] : List UInt8).length : Int)) -
            (8 + (([2] : List UInt8).length : Int)), 0,
          ([[9]] ++ [[1, 1], [2]]) ++ [[1, 1], [2]], []⟩ :=
  (ndup_duplicates_top_items [[9]] [] [1, 1] [2] [] 21 0).2.1 (by decide)

end vm
end Coingod

namespace Coingod
namespace vm

/-! ## C13: lowering the run limit -/

/-- `popBigInt` on a machine given by its fields: underflow on an empty data
stack, otherwise the decoded top item and the machine without it; the run
limit plays no part in which of the two it is. -/
theorem popBigInt_cases (L dc : Int) (s t : List (List UInt8)) :
    (s = [] ∧ popBigInt ⟨L, dc, s, t⟩ false =
      (Except.error VMError.ErrDataStackUnderflow, ⟨L, dc, s, t⟩)) ∨
    ∃ x, s.getLast? = some x ∧
      popBigInt ⟨L, dc, s, t⟩ false =
        (AsBigInt x, ⟨toInt64 (L + (8 + (x.length : Int))), dc, s.dropLast, t⟩) := by
  unfold popBigInt
  rcases pop_cases ⟨L, dc, s, t⟩ with ⟨hp, hs⟩ | ⟨x, hx, hp⟩
  · exact Or.inl ⟨hs, by rw [hp]⟩
  · exact Or.inr ⟨x, hx, by rw [hp]⟩

theorem pop_fields (L dc : Int) (s t : List (List UInt8)) :
    (s = [] ∧ pop ⟨L, dc, s, t⟩ false =
      (Except.error VMError.ErrDataStackUnderflow, ⟨L, dc, s, t⟩)) ∨
    ∃ x, s.getLast? = some x ∧
      pop ⟨L, dc, s, t⟩ false =
        (Except.ok x, ⟨toInt64 (L + (8 + (x.length : Int))), dc, s.dropLast, t⟩) := by
  rcases pop_cases ⟨L, dc, s, t⟩ with ⟨hp, hs⟩ | ⟨x, hx, hp⟩
  · exact Or.inl ⟨hs, hp⟩
  · exact Or.inr ⟨x, hx, hp⟩

theorem applyCost_fields (L dc : Int) (s t : List (List UInt8)) (n : Int) :
    applyCost ⟨L, dc, s, t⟩ n = (some VMError.ErrRunLimitExceeded, ⟨0, dc, s, t⟩) ∨
    applyCost ⟨L, dc, s, t⟩ n = (none, ⟨L - n, dc, s, t⟩) :=
  applyCost_cases ⟨L, dc, s, t⟩ n

theorem pushDataStack_fields (L dc : Int) (s t : List (List UInt8)) (x : List UInt8) :
    pushDataStack ⟨L, dc, s, t⟩ x false = (some VMError.ErrRunLimitExceeded, ⟨0, dc, s, t⟩) ∨
    pushDataStack ⟨L, dc, s, t⟩ x false =
      (none, ⟨L - (8 + (x.length : Int)), dc, s ++ [x], t⟩) :=
  pushDataStack_cases ⟨L, dc, s, t⟩ x

/-- A loop whose rounds, run on two machines that differ in the run limit
only, either both fall through with the same stacks or fail on the second
machine with the run-limit error, behaves in the same way as a whole. -/
theorem forRange_same_or_run_limit (body : virtualMachine → Outcome)
    (hbody : ∀ (La Lb dc : Int) (s t : List (List UInt8)) (a1 : virtualMachine),
      body ⟨La, dc, s, t⟩ = Outcome.ret none a1 → SameOrRunLimit a1 (body ⟨Lb, dc, s, t⟩))
    (k : Nat) (La Lb dc : Int) (s t : List (List UInt8)) (a1 : virtualMachine)
    (h : forRange k body ⟨La, dc, s, t⟩ = Outcome.ret none a1) :
    SameOrRunLimit a1 (forRange k body ⟨Lb, dc, s, t⟩) := by
  induction k generalizing La Lb dc s t with
  | zero =>
    simp only [forRange, Outcome.ret.injEq, true_and] at h
    subst h
    exact Or.inl ⟨Lb, rfl⟩
  | succ k ih =>
    unfold forRange at h ⊢
    split at h
    · rename_i a2 hb
      rcases hbody La Lb dc s t a2 hb with ⟨L2, h2⟩ | ⟨v, h2⟩
      · rw [h2]
        obtain ⟨La2, dc2, s2, t2⟩ := a2
        exact ih La2 L2 dc2 s2 t2 h
      · rw [h2]
        exact Or.inr ⟨v, rfl⟩
    · exact absurd h (by simp)
    · exact absurd h (by simp)

/-- The round of `nDup` and `op2Over` on two machines that differ in the run
limit only. -/
theorem dup_body_same_or_run_limit (n : Int) (La Lb dc : Int) (s t : List (List UInt8))
    (a1 : virtualMachine)
    (h : (fun vm : virtualMachine =>
      match index vm.dataStack ((vm.dataStack.length : Int) - n) with
      | none => Outcome.panic
      | some x =>
        match pushDataStack vm x false with
        | (some err, vm) => Outcome.ret (some err) vm
        | (none, vm) => Outcome.ret none vm) ⟨La, dc, s, t⟩ = Outcome.ret none a1) :
    SameOrRunLimit a1 ((fun vm : virtualMachine =>
      match index vm.dataStack ((vm.dataStack.length : Int) - n) with
      | none => Outcome.panic
      | some x =>
        match pushDataStack vm x false with
        | (some err, vm) => Outcome.ret (some err) vm
        | (none, vm) => Outcome.ret none vm) ⟨Lb, dc, s, t⟩) := by
  simp only at h ⊢
  split at h
  · exact absurd h (by simp)
  · rename_i x hx
    rcases pushDataStack_fields La dc s t x with ha | ha <;> rw [ha] at h <;> simp only at h
    · exact absurd h (by simp)
    · simp only [Outcome.ret.injEq, true_and] at h
      subst h
      rcases pushDataStack_fields Lb dc s t x with hb | hb <;> rw [hb]
      · exact Or.inr ⟨_, rfl⟩
      · exact Or.inl ⟨_, rfl⟩

/-- The round of `op2Drop` on two machines that differ in the run limit only. -/
theorem drop_body_same_or_run_limit (La Lb dc : Int) (s t : List (List UInt8))
    (a1 : virtualMachine)
    (h : (fun vm : virtualMachine =>
      match pop vm false with
      | (Except.error err, vm) => Outcome.ret (some err) vm
      | (Except.ok _, vm) => Outcome.ret none vm) ⟨La, dc, s, t⟩ = Outcome.ret none a1) :
    SameOrRunLimit a1 ((fun vm : virtualMachine =>
      match pop vm false with
      | (Except.error err, vm) => Outcome.ret (some err) vm
      | (Except.ok _, vm) => Outcome.ret none vm) ⟨Lb, dc, s, t⟩) := by
  simp only at h ⊢
  rcases pop_fields La dc s t with ⟨_, ha⟩ | ⟨x, hx, ha⟩ <;> rw [ha] at h <;> simp only at h
  · exact absurd h (by simp)
  · simp only [Outcome.ret.injEq, true_and] at h
    subst h
    rcases pop_fields Lb dc s t with ⟨hs, _⟩ | ⟨y, hy, hb⟩
    · rw [hs] at hx
      exact absurd hx (by simp)
    · rw [hx] at hy
      simp only [Option.some.injEq] at hy
      subst hy
      rw [hb]
      exact Or.inl ⟨_, rfl⟩

end vm
end Coingod

namespace Coingod
namespace vm

/-- The opcodes whose body does not touch the run limit, on two machines that
differ in the run limit only. -/
theorem shape_same_or_run_limit (op : StackOp) (La Lb dc : Int) (s t : List (List UInt8))
    (a1 : virtualMachine)
    (hop : op = StackOp.TOALTSTACK ∨ op = StackOp.FROMALTSTACK ∨ op = StackOp.ROT2 ∨
      op = StackOp.SWAP2 ∨ op = StackOp.ROT ∨ op = StackOp.SWAP)
    (h : op.fn ⟨La, dc, s, t⟩ = Outcome.ret none a1) :
    SameOrRunLimit a1 (op.fn ⟨Lb, dc, s, t⟩) := by
  rcases hop with hop | hop | hop | hop | hop | hop <;> subst hop <;>
    simp only [StackOp.fn, opToAltStack, opFromAltStack, op2Rot, op2Swap, opRot, opSwap, rot]
      at h ⊢
  all_goals
    first
    | (rcases applyCost_fields La dc s t 2 with ha | ha <;> rw [ha] at h <;> simp only at h <;>
        rcases applyCost_fields Lb dc s t 2 with hb | hb <;> rw [hb] <;> simp only)
    | (rcases applyCost_fields La dc s t 1 with ha | ha <;> rw [ha] at h <;> simp only at h <;>
        rcases applyCost_fields Lb dc s t 1 with hb | hb <;> rw [hb] <;> simp only)
  all_goals
    first
    | (simp at h; done)
    | exact Or.inr ⟨_, rfl⟩
    | skip
  all_goals
    ((repeat' split at h) <;>
      first
      | (simp at h; done)
      | (simp only [Outcome.ret.injEq, true_and] at h
         subst h
         first
         | exact Or.inl ⟨_, rfl⟩
         | (simp only [*, if_false, ite_false]; exact Or.inl ⟨_, rfl⟩)))

/-- The opcodes built on a loop (2DROP, DUP, 2DUP, 3DUP, 2OVER), on two
machines that differ in the run limit only. -/
theorem loop_same_or_run_limit (op : StackOp) (La Lb dc : Int) (s t : List (List UInt8))
    (a1 : virtualMachine)
    (hop : op = StackOp.DROP2 ∨ op = StackOp.DUP ∨ op = StackOp.DUP2 ∨ op = StackOp.DUP3 ∨
      op = StackOp.OVER2)
    (h : op.fn ⟨La, dc, s, t⟩ = Outcome.ret none a1) :
    SameOrRunLimit a1 (op.fn ⟨Lb, dc, s, t⟩) := by
  rcases hop with hop | hop | hop | hop | hop <;> subst hop <;>
    simp only [StackOp.fn, op2Drop, opDup, op2Dup, op3Dup, nDup, op2Over, toInt64_small] at h ⊢
  · rcases applyCost_fields La dc s t 2 with ha | ha <;> rw [ha] at h <;> simp only at h
    · exact absurd h (by simp)
    · rcases applyCost_fields Lb dc s t 2 with hb | hb <;> rw [hb] <;> simp only
      · exact Or.inr ⟨_, rfl⟩
      · exact forRange_same_or_run_limit _ drop_body_same_or_run_limit 2 _ _ _ _ _ _ h
  · rcases applyCost_fields La dc s t 1 with ha | ha <;> rw [ha] at h <;> simp only at h
    · exact absurd h (by simp)
    · rcases applyCost_fields Lb dc s t 1 with hb | hb <;> rw [hb] <;> simp only
      · exact Or.inr ⟨_, rfl⟩
      · split at h
        · exact absurd h (by simp)
        · rename_i hc
          rw [if_neg hc]
          exact forRange_same_or_run_limit _ (dup_body_same_or_run_limit 1) _ _ _ _ _ _ _ h
  · rcases applyCost_fields La dc s t 2 with ha | ha <;> rw [ha] at h <;> simp only at h
    · exact absurd h (by simp)
    · rcases applyCost_fields Lb dc s t 2 with hb | hb <;> rw [hb] <;> simp only
      · exact Or.inr ⟨_, rfl⟩
      · split at h
        · exact absurd h (by simp)
        · rename_i hc
          rw [if_neg hc]
          exact forRange_same_or_run_limit _ (dup_body_same_or_run_limit 2) _ _ _ _ _ _ _ h
  · rcases applyCost_fields La dc s t 3 with ha | ha <;> rw [ha] at h <;> simp only at h
    · exact absurd h (by simp)
    · rcases applyCost_fields Lb dc s t 3 with hb | hb <;> rw [hb] <;> simp only
      · exact Or.inr ⟨_, rfl⟩
      · split at h
        · exact absurd h (by simp)
        · rename_i hc
          rw [if_neg hc]
          exact forRange_same_or_run_limit _ (dup_body_same_or_run_limit 3) _ _ _ _ _ _ _ h
  · rcases applyCost_fields La dc s t 2 with ha | ha <;> rw [ha] at h <;> simp only at h
    · exact absurd h (by simp)
    · rcases applyCost_fields Lb dc s t 2 with hb | hb <;> rw [hb] <;> simp only
      · exact Or.inr ⟨_, rfl⟩
      · split at h
        · exact absurd h (by simp)
        · rename_i hc
          rw [if_neg hc]
          exact forRange_same_or_run_limit _ (dup_body_same_or_run_limit 4) _ _ _ _ _ _ _ h

end vm
end Coingod

namespace Coingod
namespace vm

theorem opDrop_same_or_run_limit (La Lb dc : Int) (s t : List (List UInt8))
    (a1 : virtualMachine) (h : opDrop ⟨La, dc, s, t⟩ = Outcome.ret none a1) :
    SameOrRunLimit a1 (opDrop ⟨Lb, dc, s, t⟩) := by
  simp only [opDrop] at h ⊢
  rcases applyCost_fields La dc s t 1 with ha | ha <;> rw [ha] at h <;> simp only at h
  · exact absurd h (by simp)
  · rcases applyCost_fields Lb dc s t 1 with hb | hb <;> rw [hb] <;> simp only
    · exact Or.inr ⟨_, rfl⟩
    · exact drop_body_same_or_run_limit _ _ _ _ _ _ h

theorem opNip_same_or_run_limit (La Lb dc : Int) (s t : List (List UInt8))
    (a1 : virtualMachine) (h : opNip ⟨La, dc, s, t⟩ = Outcome.ret none a1) :
    SameOrRunLimit a1 (opNip ⟨Lb, dc, s, t⟩) := by
  simp only [opNip] at h ⊢
  rcases applyCost_fields La dc s t 1 with ha | ha <;> rw [ha] at h <;> simp only at h
  · exact absurd h (by simp)
  · rcases applyCost_fields Lb dc s t 1 with hb | hb <;> rw [hb] <;> simp only
    · exact Or.inr ⟨_, rfl⟩
    · simp only [top] at h ⊢
      split at h
      · exact absurd h (by simp)
      · split at h
        · exact absurd h (by simp)
        · rename_i x _ _ s2 _
          rcases pop_fields (La - 1) dc s2 t with ⟨_, hp⟩ | ⟨y, hy, hp⟩ <;> rw [hp] at h <;>
            simp only at h
          · exact absurd h (by simp)
          · simp only [Outcome.ret.injEq, true_and] at h
            subst h
            rcases pop_fields (Lb - 1) dc s2 t with ⟨hs, _⟩ | ⟨z, hz, hq⟩
            · rw [hs] at hy
              exact absurd hy (by simp)
            · rw [hy] at hz
              simp only [Option.some.injEq] at hz
              subst hz
              rw [hq]
              exact Or.inl ⟨_, rfl⟩

theorem opIfDup_same_or_run_limit (La Lb dc : Int) (s t : List (List UInt8))
    (a1 : virtualMachine) (h : opIfDup ⟨La, dc, s, t⟩ = Outcome.ret none a1) :
    SameOrRunLimit a1 (opIfDup ⟨Lb, dc, s, t⟩) := by
  simp only [opIfDup] at h ⊢
  rcases applyCost_fields La dc s t 1 with ha | ha <;> rw [ha] at h <;> simp only at h
  · exact absurd h (by simp)
  · rcases applyCost_fields Lb dc s t 1 with hb | hb <;> rw [hb] <;> simp only
    · exact Or.inr ⟨_, rfl⟩
    · simp only [top] at h ⊢
      split at h
      · exact absurd h (by simp)
      · rename_i item _
        split at h
        · rename_i hc
          rw [if_pos hc]
          rcases pushDataStack_fields (La - 1) dc s t item with hp | hp <;> rw [hp] at h <;>
            simp only at h
          · exact absurd h (by simp)
          · simp only [Outcome.ret.injEq, true_and] at h
            subst h
            rcases pushDataStack_fields (Lb - 1) dc s t item with hq | hq <;> rw [hq]
            · exact Or.inr ⟨_, rfl⟩
            · exact Or.inl ⟨_, rfl⟩
        · rename_i hc
          rw [if_neg hc]
          simp only [Outcome.ret.injEq, true_and] at h
          subst h
          exact Or.inl ⟨_, rfl⟩

theorem opDepth_same_or_run_limit (La Lb dc : Int) (s t : List (List UInt8))
    (a1 : virtualMachine) (h : opDepth ⟨La, dc, s, t⟩ = Outcome.ret none a1) :
    SameOrRunLimit a1 (opDepth ⟨Lb, dc, s, t⟩) := by
  simp only [opDepth, pushBigInt] at h ⊢
  rcases applyCost_fields La dc s t 1 with ha | ha <;> rw [ha] at h <;> simp only at h
  · exact absurd h (by simp)
  · rcases applyCost_fields Lb dc s t 1 with hb | hb <;> rw [hb] <;> simp only
    · exact Or.inr ⟨_, rfl⟩
    · rcases pushDataStack_fields (La - 1) dc s t (BigIntBytes (toUint64 s.length))
        with hp | hp <;> rw [hp] at h <;> simp only at h
      · exact absurd h (by simp)
      · simp only [Outcome.ret.injEq, true_and] at h
        subst h
        rcases pushDataStack_fields (Lb - 1) dc s t (BigIntBytes (toUint64 s.length))
          with hq | hq <;> rw [hq]
        · exact Or.inr ⟨_, rfl⟩
        · exact Or.inl ⟨_, rfl⟩

theorem opOver_same_or_run_limit (La Lb dc : Int) (s t : List (List UInt8))
    (a1 : virtualMachine) (h : opOver ⟨La, dc, s, t⟩ = Outcome.ret none a1) :
    SameOrRunLimit a1 (opOver ⟨Lb, dc, s, t⟩) := by
  simp only [opOver] at h ⊢
  rcases applyCost_fields La dc s t 1 with ha | ha <;> rw [ha] at h <;> simp only at h
  · exact absurd h (by simp)
  · rcases applyCost_fields Lb dc s t 1 with hb | hb <;> rw [hb] <;> simp only
    · exact Or.inr ⟨_, rfl⟩
    · split at h
      · exact absurd h (by simp)
      · rename_i hc
        rw [if_neg hc]
        split at h
        · exact absurd h (by simp)
        · rename_i x _
          rcases pushDataStack_fields (La - 1) dc s t x with hp | hp <;> rw [hp] at h <;>
            simp only at h
          · exact absurd h (by simp)
          · simp only [Outcome.ret.injEq, true_and] at h
            subst h
            rcases pushDataStack_fields (Lb - 1) dc s t x with hq | hq <;> rw [hq]
            · exact Or.inr ⟨_, rfl⟩
            · exact Or.inl ⟨_, rfl⟩

theorem opTuck_same_or_run_limit (La Lb dc : Int) (s t : List (List UInt8))
    (a1 : virtualMachine) (h : opTuck ⟨La, dc, s, t⟩ = Outcome.ret none a1) :
    SameOrRunLimit a1 (opTuck ⟨Lb, dc, s, t⟩) := by
  simp only [opTuck] at h ⊢
  rcases applyCost_fields La dc s t 1 with ha | ha <;> rw [ha] at h <;> simp only at h
  · exact absurd h (by simp)
  · rcases applyCost_fields Lb dc s t 1 with hb | hb <;> rw [hb] <;> simp only
    · exact Or.inr ⟨_, rfl⟩
    · split at h
      · exact absurd h (by simp)
      · rename_i hc
        rw [if_neg hc]
        split at h
        · exact absurd h (by simp)
        · split at h
          · exact absurd h (by simp)
          · split at h
            · exact absurd h (by simp)
            · rename_i top2 _ _ s2 _ _ x _
              rcases pushDataStack_fields (La - 1) dc s2 t x with hp | hp <;> rw [hp] at h <;>
                simp only at h
              · exact absurd h (by simp)
              · simp only [Outcome.ret.injEq, true_and] at h
                subst h
                rcases pushDataStack_fields (Lb - 1) dc s2 t x with hq | hq <;> rw [hq]
                · exact Or.inr ⟨_, rfl⟩
                · exact Or.inl ⟨_, rfl⟩

end vm
end Coingod

namespace Coingod
namespace vm

theorem opPick_same_or_run_limit (La Lb dc : Int) (s t : List (List UInt8))
    (a1 : virtualMachine) (h : opPick ⟨La, dc, s, t⟩ = Outcome.ret none a1) :
    SameOrRunLimit a1 (opPick ⟨Lb, dc, s, t⟩) := by
  simp only [opPick] at h ⊢
  rcases applyCost_fields La dc s t 2 with ha | ha <;> rw [ha] at h <;> simp only at h
  · exact absurd h (by simp)
  · rcases applyCost_fields Lb dc s t 2 with hb | hb <;> rw [hb] <;> simp only
    · exact Or.inr ⟨_, rfl⟩
    · rcases popBigInt_cases (La - 2) dc s t with ⟨_, hp⟩ | ⟨x, hx, hp⟩ <;> rw [hp] at h <;>
        try simp only at h
      · exact absurd h (by simp)
      · rcases popBigInt_cases (Lb - 2) dc s t with ⟨hs, _⟩ | ⟨y, hy, hq⟩
        · rw [hs] at hx
          exact absurd hx (by simp)
        · rw [hx] at hy
          simp only [Option.some.injEq] at hy
          subst hy
          rw [hq]
          generalize AsBigInt x = r at h ⊢
          cases r with
          | error e => exact absurd h (by simp)
          | ok n =>
            simp only at h ⊢
            generalize toInt64 (Uint64 n) = off0 at h ⊢
            rcases AddInt64_one_cases off0 with hadd | hadd <;> rw [hadd] at h ⊢ <;>
              simp only at h ⊢
            · exact absurd h (by simp)
            · split at h
              · exact absurd h (by simp)
              · rename_i hc
                rw [if_neg hc]
                split at h
                · exact absurd h (by simp)
                · rename_i z _
                  rcases pushDataStack_fields (toInt64 (La - 2 + (8 + (x.length : Int)))) dc
                    s.dropLast t z with hp2 | hp2 <;> rw [hp2] at h <;> simp only at h
                  · exact absurd h (by simp)
                  · simp only [Outcome.ret.injEq, true_and] at h
                    subst h
                    rcases pushDataStack_fields (toInt64 (Lb - 2 + (8 + (x.length : Int)))) dc
                      s.dropLast t z with hq2 | hq2 <;> rw [hq2]
                    · exact Or.inr ⟨_, rfl⟩
                    · exact Or.inl ⟨_, rfl⟩

theorem opRoll_same_or_run_limit (La Lb dc : Int) (s t : List (List UInt8))
    (a1 : virtualMachine) (h : opRoll ⟨La, dc, s, t⟩ = Outcome.ret none a1) :
    SameOrRunLimit a1 (opRoll ⟨Lb, dc, s, t⟩) := by
  simp only [opRoll] at h ⊢
  rcases applyCost_fields La dc s t 2 with ha | ha <;> rw [ha] at h <;> simp only at h
  · exact absurd h (by simp)
  · rcases applyCost_fields Lb dc s t 2 with hb | hb <;> rw [hb] <;> simp only
    · exact Or.inr ⟨_, rfl⟩
    · rcases popBigInt_cases (La - 2) dc s t with ⟨_, hp⟩ | ⟨x, hx, hp⟩ <;> rw [hp] at h <;>
        try simp only at h
      · exact absurd h (by simp)
      · rcases popBigInt_cases (Lb - 2) dc s t with ⟨hs, _⟩ | ⟨y, hy, hq⟩
        · rw [hs] at hx
          exact absurd hx (by simp)
        · rw [hx] at hy
          simp only [Option.some.injEq] at hy
          subst hy
          rw [hq]
          generalize AsBigInt x = r at h ⊢
          cases r with
          | error e => exact absurd h (by simp)
          | ok n =>
            simp only at h ⊢
            generalize toInt64 (Uint64 n) = off0 at h ⊢
            rcases AddInt64_one_cases off0 with hadd | hadd <;> rw [hadd] at h ⊢ <;>
              simp only at h ⊢
            · exact absurd h (by simp)
            · unfold rot at h ⊢
              simp only at h ⊢
              (repeat' split at h) <;>
                first
                | (simp at h; done)
                | (simp only [Outcome.ret.injEq, true_and] at h
                   subst h
                   first
                   | exact Or.inl ⟨_, rfl⟩
                   | (simp only [*, if_false, ite_false]; exact Or.inl ⟨_, rfl⟩))

/-- Every opcode of stack.go, on two machines that differ in the run limit
only: when the first run succeeds, the second succeeds with the same stacks or
fails with ErrRunLimitExceeded. -/
theorem op_same_or_run_limit (op : StackOp) (La Lb dc : Int) (s t : List (List UInt8))
    (a1 : virtualMachine) (h : op.fn ⟨La, dc, s, t⟩ = Outcome.ret none a1) :
    SameOrRunLimit a1 (op.fn ⟨Lb, dc, s, t⟩) := by
  cases op
  case TOALTSTACK => exact shape_same_or_run_limit _ La Lb dc s t a1 (by simp) h
  case FROMALTSTACK => exact shape_same_or_run_limit _ La Lb dc s t a1 (by simp) h
  case ROT2 => exact shape_same_or_run_limit _ La Lb dc s t a1 (by simp) h
  case SWAP2 => exact shape_same_or_run_limit _ La Lb dc s t a1 (by simp) h
  case ROT => exact shape_same_or_run_limit _ La Lb dc s t a1 (by simp) h
  case SWAP => exact shape_same_or_run_limit _ La Lb dc s t a1 (by simp) h
  case DROP2 => exact loop_same_or_run_limit _ La Lb dc s t a1 (by simp) h
  case DUP => exact loop_same_or_run_limit _ La Lb dc s t a1 (by simp) h
  case DUP2 => exact loop_same_or_run_limit _ La Lb dc s t a1 (by simp) h
  case DUP3 => exact loop_same_or_run_limit _ La Lb dc s t a1 (by simp) h
  case OVER2 => exact loop_same_or_run_limit _ La Lb dc s t a1 (by simp) h
  case IFDUP => exact opIfDup_same_or_run_limit La Lb dc s t a1 h
  case DEPTH => exact opDepth_same_or_run_limit La Lb dc s t a1 h
  case DROP => exact opDrop_same_or_run_limit La Lb dc s t a1 h
  case NIP => exact opNip_same_or_run_limit La Lb dc s t a1 h
  case OVER => exact opOver_same_or_run_limit La Lb dc s t a1 h
  case PICK => exact opPick_same_or_run_limit La Lb dc s t a1 h
  case ROLL => exact opRoll_same_or_run_limit La Lb dc s t a1 h
  case TUCK => exact opTuck_same_or_run_limit La Lb dc s t a1 h

/-- C13: for every opcode of stack.go and every machine on which it succeeds,
the same opcode on the same data stack and alt stack with a lower run limit
`L'` either succeeds with the same resulting data stack and alt stack, or
fails with ErrRunLimitExceeded; it never fails with another error and never
panics.  (The proof does not use that `L'` is lower: the same holds for any
other run limit.) -/
theorem lower_run_limit_only_run_limit_failure (op : StackOp) (vm vm1 : virtualMachine)
    (L' : Int) (h : op.fn vm = Outcome.ret none vm1) (_hL : L' < vm.runLimit) :
    (∃ vm2, op.fn { vm with runLimit := L' } = Outcome.ret none vm2 ∧
      vm2.dataStack = vm1.dataStack ∧ vm2.altStack = vm1.altStack) ∨
    (∃ vm2, op.fn { vm with runLimit := L' } =
      Outcome.ret (some VMError.ErrRunLimitExceeded) vm2) := by
  obtain ⟨La, dc, s, t⟩ := vm
  rcases op_same_or_run_limit op La L' dc s t vm1 h with ⟨L2, h2⟩ | ⟨v, h2⟩
  · exact Or.inl ⟨_, h2, rfl, rfl⟩
  · exact Or.inr ⟨v, h2⟩

/-- Witness for C13: 2DUP succeeds with run limit 30; with run limit 15 it
fails with ErrRunLimitExceeded (after its first push). -/
theorem lower_run_limit_only_run_limit_failure_witness :
    StackOp.fn StackOp.DUP2 ⟨30, 0, [[1, 1, 1], [2]], []⟩ =
      Outcome.ret none ⟨8, 0, [[1, 1, 1], [2], [1, 1, 1], [2]], []⟩ ∧
    ((∃ vm2, StackOp.fn StackOp.DUP2 ⟨15, 0, [[1, 1, 1], [2]], []⟩ = Outcome.ret none vm2 ∧
      vm2.dataStack = [[1, 1, 1], [2], [1, 1, 1], [2]] ∧ vm2.altStack = []) ∨
    (∃ vm2, StackOp.fn StackOp.DUP2 ⟨15, 0, [[1, 1, 1], [2]], []⟩ =
      Outcome.ret (some VMError.ErrRunLimitExceeded) vm2)) :=
  ⟨by decide,
   lower_run_limit_only_run_limit_failure StackOp.DUP2 ⟨30, 0, [[1, 1, 1], [2]], []⟩
     ⟨8, 0, [[1, 1, 1], [2], [1, 1, 1], [2]], []⟩ 15 (by decide) (by decide)⟩

end vm
end Coingod

namespace Coingod
namespace consensus

/-! ## C21: a failed InitActiveNetParams -/

/-- C21 (counterexample): with the main profile active, `InitActiveNetParams`
on "main" (a profile name, not a key of `NetParams`) returns an error and
leaves `ActiveNetParams` equal to the zero value of `Params`, which is not the
main profile that was active before the call. -/
theorem InitActiveNetParams_failure_overwrites_example :
    "main" ∉ NetParams.map (fun p => p.1) ∧
    (InitActiveNetParams "main" MainNetParams).2 ≠ none ∧
    (InitActiveNetParams "main" MainNetParams).1 = zeroParams ∧
    (InitActiveNetParams "main" MainNetParams).1 ≠ MainNetParams := by
  unfold InitActiveNetParams
  decide

/-- C21 (amended): for every chain ID that is not a key of `NetParams`,
`InitActiveNetParams` returns the error "chain_id[..] don't exist" and leaves
`ActiveNetParams` equal to the zero value of `Params` (what indexing the map
yields for a missing key), whatever it was before the call; so it equals its
value before the call only if that value was already the zero value. -/
theorem InitActiveNetParams_failure_zero_value (chainID : String) (old : Params)
    (h : chainID ∉ NetParams.map (fun p => p.1)) :
    (InitActiveNetParams chainID old).2 =
      some ("chain_id[" ++ chainID ++ "] don\x27t exist") ∧
    (InitActiveNetParams chainID old).1 = zeroParams ∧
    ((InitActiveNetParams chainID old).1 = old ↔ old = zeroParams) := by
  have h1 : chainID ≠ "mainnet" := fun e => h (by rw [e]; decide)
  have h2 : chainID ≠ "wisdom" := fun e => h (by rw [e]; decide)
  have h3 : chainID ≠ "solonet" := fun e => h (by rw [e]; decide)
  have hm : mapIndex NetParams chainID = (zeroParams, false) := by
    rw [mapIndex_NetParams, if_neg h1, if_neg h2, if_neg h3]
  unfold InitActiveNetParams
  rw [hm]
  refine ⟨rfl, rfl, ?_⟩
  constructor
  · intro e
    exact e.symm
  · intro e
    exact e.symm

/-- Witness for C21: the chain ID "test" with the solo profile active. -/
theorem InitActiveNetParams_failure_zero_value_witness :
    "test" ∉ NetParams.map (fun p => p.1) ∧
    (InitActiveNetParams "test" SoloNetParams).2 = some "chain_id[test] don\x27t exist" ∧
    (InitActiveNetParams "test" SoloNetParams).1 = zeroParams :=
  ⟨by decide,
   (InitActiveNetParams_failure_zero_value "test" SoloNetParams (by decide)).1,
   (InitActiveNetParams_failure_zero_value "test" SoloNetParams (by decide)).2.1⟩

end consensus
end Coingod

namespace Coingod
namespace consensus

/-! ## C22: VotePendingBlockNums -/

/-- C22 (counterexample): at the height 2^64 - 1 (`math.MaxUint64`), with the
test or the solo profile active, `VotePendingBlockNums` returns the default
202500 and not 10, the `Num` of the single configured range `[0, MaxUint64)`,
whose end is excluded. -/
theorem VotePendingBlockNums_max_height_example :
    (18446744073709551615 : Nat) = 2 ^ 64 - 1 ∧
    TestNetParams.VotePendingBlockNums = [⟨0, 18446744073709551615, 10⟩] ∧
    SoloNetParams.VotePendingBlockNums = [⟨0, 18446744073709551615, 10⟩] ∧
    VotePendingBlockNums TestNetParams 18446744073709551615 = 202500 ∧
    VotePendingBlockNums SoloNetParams 18446744073709551615 = 202500 ∧
    VotePendingBlockNums TestNetParams 18446744073709551615 ≠ 10 ∧
    VotePendingBlockNums SoloNetParams 18446744073709551615 ≠ 10 := by
  decide

/-- The loop of `VotePendingBlockNums` stops at the first range that covers the
height. -/
theorem find_first_cover (height : Nat) (pre post : List VotePendingBlockNum)
    (r : VotePendingBlockNum)
    (hpre : ∀ q ∈ pre, ¬ (q.BeginBlock ≤ height ∧ height < q.EndBlock))
    (hr : r.BeginBlock ≤ height ∧ height < r.EndBlock) :
    (pre ++ r :: post).find?
      (fun pendingNum => decide (height ≥ pendingNum.BeginBlock ∧ height < pendingNum.EndBlock))
      = some r := by
  induction pre with
  | nil => simp [List.find?, hr]
  | cons q pre ih =>
    have hq : ¬ (q.BeginBlock ≤ height ∧ height < q.EndBlock) :=
      hpre q (List.mem_cons_self _ _)
    have ih2 := ih (fun q2 hq2 => hpre q2 (List.mem_cons_of_mem _ hq2))
    rw [List.cons_append, List.find?_cons_of_neg _ (by simpa using hq)]
    exact ih2

/-- The first range that covers the height decides. -/
theorem VotePendingBlockNums_first_cover (P : Params) (height : Nat)
    (pre post : List VotePendingBlockNum) (r : VotePendingBlockNum)
    (hP : P.VotePendingBlockNums = pre ++ r :: post)
    (hpre : ∀ q ∈ pre, ¬ (q.BeginBlock ≤ height ∧ height < q.EndBlock))
    (hr : r.BeginBlock ≤ height ∧ height < r.EndBlock) :
    VotePendingBlockNums P height = r.Num := by
  unfold VotePendingBlockNums
  rw [hP, find_first_cover height pre post r hpre hr]

/-- No range covers the height: the default. -/
theorem VotePendingBlockNums_no_cover (P : Params) (height : Nat)
    (hno : ∀ q ∈ P.VotePendingBlockNums, ¬ (q.BeginBlock ≤ height ∧ height < q.EndBlock)) :
    VotePendingBlockNums P height = defaultVotePendingNum := by
  unfold VotePendingBlockNums
  have hfind : P.VotePendingBlockNums.find?
      (fun pendingNum => decide (height ≥ pendingNum.BeginBlock ∧ height < pendingNum.EndBlock))
      = none := by
    rw [List.find?_eq_none]
    intro q hq
    simpa using hno q hq
  rw [hfind]

/-- C22 (amended): for every uint64 height, with any profile `P` active,
`VotePendingBlockNums` returns the `Num` of the first range with
`BeginBlock ≤ height < EndBlock`, and `defaultVotePendingNum` = 202500 when no
range covers the height.  With a built-in profile active this is 202500 on
main at every height, 10 on test and solo at every height below 2^64 - 1, and
202500 on test and solo at the height 2^64 - 1, which the single configured
range `[0, MaxUint64)` does not cover. -/
theorem VotePendingBlockNums_half_open_ranges (P : Params) (height : Nat)
    (hh : height ≤ MaxUint64) :
    VotePendingBlockNums MainNetParams height = 202500 ∧
    (height < MaxUint64 →
      VotePendingBlockNums TestNetParams height = 10 ∧
      VotePendingBlockNums SoloNetParams height = 10) ∧
    (height = MaxUint64 →
      VotePendingBlockNums TestNetParams height = 202500 ∧
      VotePendingBlockNums SoloNetParams height = 202500) ∧
    (∀ (pre post : List VotePendingBlockNum) (r : VotePendingBlockNum),
      P.VotePendingBlockNums = pre ++ r :: post →
      (∀ q ∈ pre, ¬ (q.BeginBlock ≤ height ∧ height < q.EndBlock)) →
      r.BeginBlock ≤ height ∧ height < r.EndBlock →
      VotePendingBlockNums P height = r.Num) ∧
    ((∀ q ∈ P.VotePendingBlockNums, ¬ (q.BeginBlock ≤ height ∧ height < q.EndBlock)) →
      VotePendingBlockNums P height = 202500) ∧
    ((∃ (pre post : List VotePendingBlockNum) (r : VotePendingBlockNum),
        P.VotePendingBlockNums = pre ++ r :: post ∧
        (∀ q ∈ pre, ¬ (q.BeginBlock ≤ height ∧ height < q.EndBlock)) ∧
        (r.BeginBlock ≤ height ∧ height < r.EndBlock)) ∨
      (∀ q ∈ P.VotePendingBlockNums, ¬ (q.BeginBlock ≤ height ∧ height < q.EndBlock))) := by
  refine ⟨?_, ?_, ?_, ?_, ?_, ?_⟩
  · by_cases hlt : height < MaxUint64
    · exact VotePendingBlockNums_first_cover MainNetParams height [] [] ⟨0, MaxUint64, 202500⟩
        rfl (by simp) ⟨Nat.zero_le _, hlt⟩
    · exact VotePendingBlockNums_no_cover MainNetParams height (by
        intro q hq
        have hq2 : q = ⟨0, MaxUint64, defaultVotePendingNum⟩ := by
          simpa [MainNetParams] using hq
        subst hq2
        exact fun hc => hlt hc.2)
  · intro hlt
    exact ⟨VotePendingBlockNums_first_cover TestNetParams height [] [] ⟨0, MaxUint64, 10⟩
        rfl (by simp) ⟨Nat.zero_le _, hlt⟩,
      VotePendingBlockNums_first_cover SoloNetParams height [] [] ⟨0, MaxUint64, 10⟩
        rfl (by simp) ⟨Nat.zero_le _, hlt⟩⟩
  · intro heq
    subst heq
    exact ⟨by decide, by decide⟩
  · intro pre post r hP hpre hr
    exact VotePendingBlockNums_first_cover P height pre post r hP hpre hr
  · intro hno
    exact VotePendingBlockNums_no_cover P height hno
  · induction P.VotePendingBlockNums with
    | nil => exact Or.inr (by simp)
    | cons q l ih =>
      by_cases hq : q.BeginBlock ≤ height ∧ height < q.EndBlock
      · exact Or.inl ⟨[], l, q, rfl, by simp, hq⟩
      · rcases ih with ⟨pre, post, r, hl, hpre, hr⟩ | hno
        · refine Or.inl ⟨q :: pre, post, r, by rw [hl]; rfl, ?_, hr⟩
          intro q2 hq2
          rcases List.mem_cons.mp hq2 with e | e
          · rw [e]; exact hq
          · exact hpre q2 e
        · refine Or.inr ?_
          intro q2 hq2
          rcases List.mem_cons.mp hq2 with e | e
          · rw [e]; exact hq
          · exact hno q2 e

/-- Witness for C22: the height 1000 on the three built-in profiles. -/
theorem VotePendingBlockNums_half_open_ranges_witness :
    VotePendingBlockNums MainNetParams 1000 = 202500 ∧
    VotePendingBlockNums TestNetParams 1000 = 10 ∧
    VotePendingBlockNums SoloNetParams 1000 = 10 :=
  ⟨(VotePendingBlockNums_half_open_ranges MainNetParams 1000 (by decide)).1,
   ((VotePendingBlockNums_half_open_ranges MainNetParams 1000 (by decide)).2.1 (by decide)).1,
   ((VotePendingBlockNums_half_open_ranges MainNetParams 1000 (by decide)).2.1 (by decide)).2⟩

end consensus
end Coingod
